import Mathlib

/-!
Verification of the UniCourt automation back end's orchestration core.

This file gives a shallow embedding, in Lean, of the parts of the program
that the specification's testable properties talk about:

* the title classifiers (`app/services/unicourt_handler.py`,
  `app/services/case_processor.py`);
* the final case-status computation and the fact-merge step of
  `CaseProcessorService` (`app/services/case_processor.py`);
* the per-document extraction loop with its early-skip check
  (`app/services/case_processor.py`);
* the submission endpoint (`app/api/routers/cases.py` together with
  `app/db/crud.py`);
* the worker dispatch / retry loop (`app/workers/case_worker.py`),
  modelled as a set of atomic transition steps on a pool state;
* the chunked ordering of free paid-section documents and the final
  status safeguard of the document resolver
  (`app/services/unicourt_handler.py`).

Each definition carries a comment naming the Python source location it was
translated from.  Theorems then state and settle the specification's claims
over those definitions.
-/

namespace UniCourt

/-- Enumeration `CaseStatusEnum` of `app/db/models.py` lines 8-18. -/
inductive CaseStatusEnum
  | QUEUED
  | PROCESSING
  | COMPLETED_SUCCESSFULLY
  | COMPLETED_MISSING_DATA
  | COMPLETED_WITH_ERRORS
  | CASE_NOT_FOUND_ON_UNICOURT
  | VOLUNTARY_DISMISSAL_FOUND_SKIPPED
  | NO_FJ_NO_COMPLAINT_PDFS_FOUND
  | SESSION_ERROR
  | WORKER_ERROR
deriving DecidableEq, Repr

/-- Enumeration `DocumentTypeEnum` of `app/db/models.py` lines 21-24. -/
inductive DocumentTypeEnum
  | FINAL_JUDGMENT
  | COMPLAINT
  | UNKNOWN
deriving DecidableEq, Repr

/-- Enumeration `DocumentProcessingStatusEnum` of `app/db/models.py` lines 26-38. -/
inductive DocumentProcessingStatusEnum
  | IDENTIFIED_FOR_PROCESSING
  | SKIPPED_REQUIRES_PAYMENT
  | ORDERING_COMPLETED
  | ORDERING_FAILED
  | DOWNLOAD_SUCCESS
  | DOWNLOAD_FAILED
  | SKIPPED_PROCESSING_NOT_NEEDED
  | LLM_PREPARATION_FAILED
  | LLM_PROCESSING_ERROR
  | LLM_EXTRACTION_FAILED
  | LLM_EXTRACTION_SUCCESS
  | GENERIC_PROCESSING_ERROR
deriving DecidableEq, Repr

/-- Whether `needle` occurs at the start of `hay` (helper for Python's substring test). -/
def listStartsWith : List Char → List Char → Bool
  | _, [] => true
  | [], _ :: _ => false
  | h :: hs, n :: ns => h = n && listStartsWith hs ns

/-- Whether `needle` occurs as a contiguous substring of `hay`; this is the semantics
of Python's `needle in hay` on strings. -/
def listContainsSub (hay needle : List Char) : Bool :=
  match hay with
  | [] => needle.isEmpty
  | _ :: t => listStartsWith hay needle || listContainsSub t needle

/-- Python's `s.upper()`, character by character. -/
def upperChars (s : String) : List Char := s.toList.map Char.toUpper

/-- Python's `kw.upper() in title.upper()`, the keyword test shared by both
title classifiers. -/
def kwMatch (title kw : String) : Bool :=
  listContainsSub (upperChars title) (upperChars kw)

/-- Classifier `UnicourtHandler._categorize_doc_title`, `app/services/unicourt_handler.py`
lines 561-568: FinalJudgment if ANY final-judgment keyword matches, else
Complaint if any complaint keyword matches, else Unknown. -/
def categorizeDocTitle (kwFJ kwComplaint : List String) (title : String) :
    DocumentTypeEnum :=
  let isFj := kwFJ.any (kwMatch title)
  let isComplaint := kwComplaint.any (kwMatch title)
  if isFj then DocumentTypeEnum.FINAL_JUDGMENT
  else if isComplaint then DocumentTypeEnum.COMPLAINT
  else DocumentTypeEnum.UNKNOWN

/-- Classifier `CaseProcessorService._doc_type_from_summary`, `app/services/case_processor.py`
lines 460-469: FinalJudgment only if ALL final-judgment keywords match, else
Complaint if any complaint keyword matches, else Unknown. -/
def docTypeFromSummary (kwFJ kwComplaint : List String) (title : String) :
    DocumentTypeEnum :=
  if kwFJ.all (kwMatch title) then DocumentTypeEnum.FINAL_JUDGMENT
  else if kwComplaint.any (kwMatch title) then DocumentTypeEnum.COMPLAINT
  else DocumentTypeEnum.UNKNOWN

/-- Setting `AppSettings.DOC_KEYWORDS_FJ`, `app/core/config.py` line 129. -/
def defaultKwFJ : List String := ["FINAL", "JUDGMENT"]

/-- Setting `AppSettings.DOC_KEYWORDS_COMPLAINT`, `app/core/config.py` line 130. -/
def defaultKwComplaint : List String := ["COMPLAINT"]

/-- A document title that contains the keyword FINAL but not JUDGMENT. -/
def titleFinalOrder : String := "FINAL ORDER"

/-- C10 counterexample: with the default keyword sets the two classifiers
disagree on the title FINAL ORDER — the discovery classifier (any keyword)
labels it FinalJudgment while the summary classifier (all keywords) labels
it Unknown.  This refutes the claim that the two classifiers produce the
same document type on every title. -/
theorem c10_counterexample :
    categorizeDocTitle defaultKwFJ defaultKwComplaint titleFinalOrder =
      DocumentTypeEnum.FINAL_JUDGMENT ∧
    docTypeFromSummary defaultKwFJ defaultKwComplaint titleFinalOrder =
      DocumentTypeEnum.UNKNOWN := by
  decide

/-- C10 (amended): the two classifiers are not equivalent in general; with
the default keyword sets they agree on a title exactly when it matches
either all of the final-judgment keywords or none of them.  In the
all-or-none cases `_categorize_doc_title` and `_doc_type_from_summary`
coincide; on any title matching some but not all of FINAL, JUDGMENT the
discovery classifier returns FinalJudgment while the summary classifier
returns Complaint or Unknown, so they disagree. -/
theorem c10_classifiers_agree_iff_all_or_none (title : String) :
    (categorizeDocTitle defaultKwFJ defaultKwComplaint title =
      docTypeFromSummary defaultKwFJ defaultKwComplaint title) ↔
    ((∀ kw ∈ defaultKwFJ, kwMatch title kw = true) ∨
      (∀ kw ∈ defaultKwFJ, kwMatch title kw = false)) := by
  constructor
  · intro hagree
    cases hF : kwMatch title ("FINAL") with
    | true =>
      cases hJ : kwMatch title ("JUDGMENT") with
      | true =>
        left
        intro kw hkw
        simp only [defaultKwFJ, List.mem_cons, List.mem_singleton] at hkw
        rcases hkw with rfl | rfl | hkw
        · exact hF
        · exact hJ
        · exact absurd hkw (List.not_mem_nil kw)
      | false =>
        exfalso
        have hcat : categorizeDocTitle defaultKwFJ defaultKwComplaint title =
            DocumentTypeEnum.FINAL_JUDGMENT := by
          simp [categorizeDocTitle, defaultKwFJ, hF]
        have hall : defaultKwFJ.all (kwMatch title) = false := by
          simp [defaultKwFJ, hJ]
        have hsum : docTypeFromSummary defaultKwFJ defaultKwComplaint title ≠
            DocumentTypeEnum.FINAL_JUDGMENT := by
          unfold docTypeFromSummary
          rw [if_neg (by rw [hall]; exact Bool.false_ne_true)]
          split_ifs <;> simp
        rw [hcat] at hagree
        exact hsum hagree.symm
    | false =>
      cases hJ : kwMatch title ("JUDGMENT") with
      | true =>
        exfalso
        have hcat : categorizeDocTitle defaultKwFJ defaultKwComplaint title =
            DocumentTypeEnum.FINAL_JUDGMENT := by
          simp [categorizeDocTitle, defaultKwFJ, hF, hJ]
        have hall : defaultKwFJ.all (kwMatch title) = false := by
          simp [defaultKwFJ, hF]
        have hsum : docTypeFromSummary defaultKwFJ defaultKwComplaint title ≠
            DocumentTypeEnum.FINAL_JUDGMENT := by
          unfold docTypeFromSummary
          rw [if_neg (by rw [hall]; exact Bool.false_ne_true)]
          split_ifs <;> simp
        rw [hcat] at hagree
        exact hsum hagree.symm
      | false =>
        right
        intro kw hkw
        simp only [defaultKwFJ, List.mem_cons, List.mem_singleton] at hkw
        rcases hkw with rfl | rfl | hkw
        · exact hF
        · exact hJ
        · exact absurd hkw (List.not_mem_nil kw)
  · intro h
    rcases h with h | h
    · have hall : defaultKwFJ.all (kwMatch title) = true := by
        simp only [List.all_eq_true]
        exact h
      have hany : defaultKwFJ.any (kwMatch title) = true := by
        simp only [List.any_eq_true]
        exact ⟨"FINAL", by simp [defaultKwFJ], h ("FINAL") (by simp [defaultKwFJ])⟩
      simp [categorizeDocTitle, docTypeFromSummary, hall, hany]
    · have hall : defaultKwFJ.all (kwMatch title) = false := by
        simp only [List.all_eq_false]
        exact ⟨"FINAL", by simp [defaultKwFJ], by simp [h ("FINAL") (by simp [defaultKwFJ])]⟩
      have hany : defaultKwFJ.any (kwMatch title) = false := by
        simp only [List.any_eq_false]
        intro kw hkw
        simp [h kw hkw]
      simp [categorizeDocTitle, docTypeFromSummary, hall, hany]

/-- Witness for C10's amended theorem at the concrete title
FINAL JUDGMENT OF FORECLOSURE, which matches all final-judgment keywords,
so the two classifiers agree on it. -/
theorem c10_classifiers_agree_witness :
    categorizeDocTitle defaultKwFJ defaultKwComplaint ("FINAL JUDGMENT OF FORECLOSURE") =
      docTypeFromSummary defaultKwFJ defaultKwComplaint ("FINAL JUDGMENT OF FORECLOSURE") :=
  (c10_classifiers_agree_iff_all_or_none ("FINAL JUDGMENT OF FORECLOSURE")).mpr
    (by decide)

/-- One entry of a case's `processed_documents_summary`
(`app/db/models.py` lines 84-86, built in `app/services/unicourt_handler.py`). -/
structure SummaryItem where
  document_name : String
  unicourt_doc_key : Option String
  status : DocumentProcessingStatusEnum
  notes : Option String
deriving DecidableEq, Repr

/-- The test `doc_type_in_summary in [FINAL_JUDGMENT, COMPLAINT]` of
`app/services/case_processor.py` line 354. -/
def relevantDocInSummary (kwFJ kwComplaint : List String) (s : SummaryItem) : Bool :=
  match docTypeFromSummary kwFJ kwComplaint s.document_name with
  | DocumentTypeEnum.FINAL_JUDGMENT => true
  | DocumentTypeEnum.COMPLAINT => true
  | DocumentTypeEnum.UNKNOWN => false

/-- The list of terminal-success document statuses of
`app/services/case_processor.py` lines 355-360. -/
def okFinalDocStatuses : List DocumentProcessingStatusEnum :=
  [DocumentProcessingStatusEnum.LLM_EXTRACTION_SUCCESS,
   DocumentProcessingStatusEnum.LLM_EXTRACTION_FAILED,
   DocumentProcessingStatusEnum.SKIPPED_PROCESSING_NOT_NEEDED,
   DocumentProcessingStatusEnum.SKIPPED_REQUIRES_PAYMENT]

/-- The error-scan loop of `app/services/case_processor.py` lines 350-363:
walk the summary and stop (with `True`) at the first relevant document whose
status is not one of the four terminal-success statuses. -/
def hasDocProcessingErrorsLoop (kwFJ kwComplaint : List String) :
    List SummaryItem → Bool
  | [] => false
  | s :: rest =>
    if relevantDocInSummary kwFJ kwComplaint s &&
        !(decide (s.status ∈ okFinalDocStatuses)) then true
    else hasDocProcessingErrorsLoop kwFJ kwComplaint rest

/-- The `all_essential_found` expression of `app/services/case_processor.py`
lines 373-379.  `foundParties` is the set of associated-party names whose
address has been found (the keys of `found_party_addresses_for_case` that map
to `True`). -/
def allEssentialFound (foundName foundAddr foundReg isBusiness extractParties : Bool)
    (targets foundParties : List String) : Bool :=
  foundName && foundAddr && (!isBusiness || foundReg) &&
    ((!extractParties || targets.isEmpty) ||
      targets.all (fun n => decide (n ∈ foundParties)))

/-- The final case-status determination of `app/services/case_processor.py`
lines 345-387: `bundleNonempty` is the truthiness of `llm_bundle_docs` used by
the `elif` on line 364. -/
def determineFinalCaseStatus (kwFJ kwComplaint : List String)
    (summary : List SummaryItem) (bundleNonempty : Bool)
    (foundName foundAddr foundReg isBusiness extractParties : Bool)
    (targets foundParties : List String) : CaseStatusEnum :=
  let hasErrors :=
    if !summary.isEmpty then hasDocProcessingErrorsLoop kwFJ kwComplaint summary
    else bundleNonempty
  if hasErrors then CaseStatusEnum.COMPLETED_WITH_ERRORS
  else if allEssentialFound foundName foundAddr foundReg isBusiness extractParties
      targets foundParties then CaseStatusEnum.COMPLETED_SUCCESSFULLY
  else CaseStatusEnum.COMPLETED_MISSING_DATA

lemma hasDocProcessingErrorsLoop_eq_true_iff (kwFJ kwComplaint : List String)
    (l : List SummaryItem) :
    hasDocProcessingErrorsLoop kwFJ kwComplaint l = true ↔
      ∃ s ∈ l, relevantDocInSummary kwFJ kwComplaint s = true ∧
        s.status ∉ okFinalDocStatuses := by
  induction l with
  | nil => simp [hasDocProcessingErrorsLoop]
  | cons s rest ih =>
    simp only [hasDocProcessingErrorsLoop]
    by_cases h : relevantDocInSummary kwFJ kwComplaint s = true ∧
        s.status ∉ okFinalDocStatuses
    · simp [h.1, h.2]
    · rw [if_neg, ih]
      · constructor
        · intro ⟨x, hx, hrel⟩
          exact ⟨x, List.mem_cons_of_mem s hx, hrel⟩
        · intro ⟨x, hx, hrel⟩
          rcases List.mem_cons.mp hx with rfl | hx
          · exact absurd hrel h
          · exact ⟨x, hx, hrel⟩
      · intro hcond
        rw [Bool.and_eq_true, Bool.not_eq_true', decide_eq_false_iff_not] at hcond
        exact h hcond

lemma allEssentialFound_eq_true_iff
    (foundName foundAddr foundReg isBusiness extractParties : Bool)
    (targets foundParties : List String) :
    allEssentialFound foundName foundAddr foundReg isBusiness extractParties
        targets foundParties = true ↔
      (foundName = true ∧ foundAddr = true ∧
        (isBusiness = true → foundReg = true) ∧
        (extractParties = true → targets ≠ [] → ∀ n ∈ targets, n ∈ foundParties)) := by
  cases foundName <;> cases foundAddr <;> cases foundReg <;> cases isBusiness <;>
    cases extractParties <;> cases targets <;>
    simp [allEssentialFound]

/-- C2: for every case run reaching the final-status computation with a
non-empty document summary, the terminal status is: CompletedWithErrors when
some document classified FinalJudgment or Complaint has a status outside the
four terminal-success statuses; otherwise CompletedSuccessfully exactly when
every essential fact is resolved (name, address, registration state when a
business, every targeted party address when that feature is on and parties
exist), and CompletedMissingData otherwise. -/
theorem c2_final_status_determination (kwFJ kwComplaint : List String)
    (summary : List SummaryItem) (bundleNonempty : Bool)
    (foundName foundAddr foundReg isBusiness extractParties : Bool)
    (targets foundParties : List String) (hne : summary ≠ []) :
    ((∃ s ∈ summary, relevantDocInSummary kwFJ kwComplaint s = true ∧
        s.status ∉ okFinalDocStatuses) →
      determineFinalCaseStatus kwFJ kwComplaint summary bundleNonempty
        foundName foundAddr foundReg isBusiness extractParties targets foundParties =
        CaseStatusEnum.COMPLETED_WITH_ERRORS) ∧
    ((∀ s ∈ summary, relevantDocInSummary kwFJ kwComplaint s = true →
        s.status ∈ okFinalDocStatuses) →
      ((foundName = true ∧ foundAddr = true ∧
          (isBusiness = true → foundReg = true) ∧
          (extractParties = true → targets ≠ [] → ∀ n ∈ targets, n ∈ foundParties)) →
        determineFinalCaseStatus kwFJ kwComplaint summary bundleNonempty
          foundName foundAddr foundReg isBusiness extractParties targets foundParties =
          CaseStatusEnum.COMPLETED_SUCCESSFULLY) ∧
      (¬ (foundName = true ∧ foundAddr = true ∧
          (isBusiness = true → foundReg = true) ∧
          (extractParties = true → targets ≠ [] → ∀ n ∈ targets, n ∈ foundParties)) →
        determineFinalCaseStatus kwFJ kwComplaint summary bundleNonempty
          foundName foundAddr foundReg isBusiness extractParties targets foundParties =
          CaseStatusEnum.COMPLETED_MISSING_DATA)) := by
  have hemp : summary.isEmpty = false := by
    cases summary with
    | nil => exact absurd rfl hne
    | cons a l => rfl
  constructor
  · intro hex
    have herr : hasDocProcessingErrorsLoop kwFJ kwComplaint summary = true :=
      (hasDocProcessingErrorsLoop_eq_true_iff kwFJ kwComplaint summary).mpr hex
    simp [determineFinalCaseStatus, hemp, herr]
  · intro hok
    have herr : hasDocProcessingErrorsLoop kwFJ kwComplaint summary = false := by
      cases h : hasDocProcessingErrorsLoop kwFJ kwComplaint summary with
      | false => rfl
      | true =>
        obtain ⟨s, hs, hrel, hbad⟩ :=
          (hasDocProcessingErrorsLoop_eq_true_iff kwFJ kwComplaint summary).mp h
        exact absurd (hok s hs hrel) hbad
    constructor
    · intro hall
      have hess := (allEssentialFound_eq_true_iff foundName foundAddr foundReg
        isBusiness extractParties targets foundParties).mpr hall
      simp [determineFinalCaseStatus, hemp, herr, hess]
    · intro hnall
      have hess : allEssentialFound foundName foundAddr foundReg isBusiness
          extractParties targets foundParties = false := by
        cases h : allEssentialFound foundName foundAddr foundReg isBusiness
            extractParties targets foundParties with
        | false => rfl
        | true =>
          exact absurd ((allEssentialFound_eq_true_iff foundName foundAddr foundReg
            isBusiness extractParties targets foundParties).mp h) hnall
      simp [determineFinalCaseStatus, hemp, herr, hess]

/-- Witness for C2 at a concrete input: one relevant document whose download
failed forces CompletedWithErrors. -/
theorem c2_final_status_witness :
    determineFinalCaseStatus defaultKwFJ defaultKwComplaint
      [⟨"FINAL JUDGMENT", none, DocumentProcessingStatusEnum.DOWNLOAD_FAILED, none⟩]
      true true true true false false [] [] =
      CaseStatusEnum.COMPLETED_WITH_ERRORS :=
  (c2_final_status_determination defaultKwFJ defaultKwComplaint
      [⟨"FINAL JUDGMENT", none, DocumentProcessingStatusEnum.DOWNLOAD_FAILED, none⟩]
      true true true true false false [] [] (by decide)).1 (by decide)

/-- Structure `LLMResponseData` of `app/services/llm_processor.py` lines 22-26; the
parsed extraction result for one document.  Associated parties are
(name, address) pairs. -/
structure LLMResponseData where
  original_creditor_name : Option String
  creditor_address : Option String
  associated_parties : List (String × String)
  creditor_registration_state : Option String
deriving DecidableEq, Repr

/-- Python truthiness of an `Optional[str]`: `None` and the empty string are
falsy, any other string is truthy. -/
def truthyStr : Option String → Bool
  | none => false
  | some s => !s.isEmpty

/-- The case-level scalar facts held on the `Case` row
(`app/db/models.py` lines 65-77), with their source-document titles. -/
structure CaseFacts where
  original_creditor_name_from_doc : Option String
  original_creditor_name_source_doc_title : Option String
  creditor_address_from_doc : Option String
  creditor_address_source_doc_title : Option String
  creditor_registration_state_from_doc : Option String
  creditor_registration_state_source_doc_title : Option String
deriving DecidableEq, Repr

/-- The fresh state of a newly created case record: no fact resolved. -/
def emptyCaseFacts : CaseFacts := ⟨none, none, none, none, none, none⟩

/-- The original-creditor-name merge block,
`app/services/case_processor.py` lines 85-89. -/
def applyOrigName (facts : CaseFacts) (title : String) (r : LLMResponseData) : CaseFacts :=
  if truthyStr r.original_creditor_name &&
      !truthyStr facts.original_creditor_name_from_doc then
    { facts with
      original_creditor_name_from_doc := r.original_creditor_name,
      original_creditor_name_source_doc_title := some title }
  else facts

/-- The creditor-address merge block,
`app/services/case_processor.py` lines 91-95. -/
def applyCredAddr (facts : CaseFacts) (title : String) (r : LLMResponseData) : CaseFacts :=
  if truthyStr r.creditor_address && !truthyStr facts.creditor_address_from_doc then
    { facts with
      creditor_address_from_doc := r.creditor_address,
      creditor_address_source_doc_title := some title }
  else facts

/-- The registration-state merge block,
`app/services/case_processor.py` lines 97-101; guarded by
`case_db_obj.is_business`. -/
def applyRegState (is_business : Bool) (facts : CaseFacts) (title : String)
    (r : LLMResponseData) : CaseFacts :=
  if is_business && truthyStr r.creditor_registration_state &&
      !truthyStr facts.creditor_registration_state_from_doc then
    { facts with
      creditor_registration_state_from_doc := r.creditor_registration_state,
      creditor_registration_state_source_doc_title := some title }
  else facts

/-- The scalar-fact part of the merge performed for one document by
`CaseProcessorService._process_single_document_with_llm`
(`app/services/case_processor.py` lines 83-101): the three first-writer-wins
blocks executed in source order. -/
def mergeScalarFacts (is_business : Bool) (facts : CaseFacts) (title : String)
    (r : LLMResponseData) : CaseFacts :=
  applyRegState is_business (applyCredAddr (applyOrigName facts title r) title r)
    title r

/-- A downloaded document together with the extraction result the Document
Extraction Service produced for it (`trans_doc_info.original_title` and
`llm_data` of `app/services/case_processor.py`). -/
structure DocExtraction where
  original_title : String
  llm_data : LLMResponseData
deriving DecidableEq, Repr

/-- The fact-merge step run over a sequence of documents in processing
order, each folded into the case facts by `mergeScalarFacts`. -/
def mergeRun (is_business : Bool) (docs : List DocExtraction) (facts : CaseFacts) :
    CaseFacts :=
  docs.foldl (fun f d => mergeScalarFacts is_business f d.original_title d.llm_data) facts

lemma applyOrigName_addr (facts : CaseFacts) (title : String) (r : LLMResponseData) :
    (applyOrigName facts title r).creditor_address_from_doc =
      facts.creditor_address_from_doc ∧
    (applyOrigName facts title r).creditor_address_source_doc_title =
      facts.creditor_address_source_doc_title ∧
    (applyOrigName facts title r).creditor_registration_state_from_doc =
      facts.creditor_registration_state_from_doc ∧
    (applyOrigName facts title r).creditor_registration_state_source_doc_title =
      facts.creditor_registration_state_source_doc_title := by
  unfold applyOrigName
  split <;> exact ⟨rfl, rfl, rfl, rfl⟩

lemma applyCredAddr_others (facts : CaseFacts) (title : String) (r : LLMResponseData) :
    (applyCredAddr facts title r).original_creditor_name_from_doc =
      facts.original_creditor_name_from_doc ∧
    (applyCredAddr facts title r).original_creditor_name_source_doc_title =
      facts.original_creditor_name_source_doc_title ∧
    (applyCredAddr facts title r).creditor_registration_state_from_doc =
      facts.creditor_registration_state_from_doc ∧
    (applyCredAddr facts title r).creditor_registration_state_source_doc_title =
      facts.creditor_registration_state_source_doc_title := by
  unfold applyCredAddr
  split <;> exact ⟨rfl, rfl, rfl, rfl⟩

lemma applyRegState_others (b : Bool) (facts : CaseFacts) (title : String)
    (r : LLMResponseData) :
    (applyRegState b facts title r).original_creditor_name_from_doc =
      facts.original_creditor_name_from_doc ∧
    (applyRegState b facts title r).original_creditor_name_source_doc_title =
      facts.original_creditor_name_source_doc_title ∧
    (applyRegState b facts title r).creditor_address_from_doc =
      facts.creditor_address_from_doc ∧
    (applyRegState b facts title r).creditor_address_source_doc_title =
      facts.creditor_address_source_doc_title := by
  unfold applyRegState
  split <;> exact ⟨rfl, rfl, rfl, rfl⟩

lemma applyOrigName_orig (facts : CaseFacts) (title : String) (r : LLMResponseData) :
    (applyOrigName facts title r).original_creditor_name_from_doc =
      (if truthyStr r.original_creditor_name &&
          !truthyStr facts.original_creditor_name_from_doc then
        r.original_creditor_name
      else facts.original_creditor_name_from_doc) ∧
    (applyOrigName facts title r).original_creditor_name_source_doc_title =
      (if truthyStr r.original_creditor_name &&
          !truthyStr facts.original_creditor_name_from_doc then
        some title
      else facts.original_creditor_name_source_doc_title) := by
  unfold applyOrigName
  split <;> exact ⟨rfl, rfl⟩

lemma applyCredAddr_addr (facts : CaseFacts) (title : String) (r : LLMResponseData) :
    (applyCredAddr facts title r).creditor_address_from_doc =
      (if truthyStr r.creditor_address && !truthyStr facts.creditor_address_from_doc then
        r.creditor_address
      else facts.creditor_address_from_doc) ∧
    (applyCredAddr facts title r).creditor_address_source_doc_title =
      (if truthyStr r.creditor_address && !truthyStr facts.creditor_address_from_doc then
        some title
      else facts.creditor_address_source_doc_title) := by
  unfold applyCredAddr
  split <;> exact ⟨rfl, rfl⟩

lemma applyRegState_reg (b : Bool) (facts : CaseFacts) (title : String)
    (r : LLMResponseData) :
    (applyRegState b facts title r).creditor_registration_state_from_doc =
      (if b && truthyStr r.creditor_registration_state &&
          !truthyStr facts.creditor_registration_state_from_doc then
        r.creditor_registration_state
      else facts.creditor_registration_state_from_doc) ∧
    (applyRegState b facts title r).creditor_registration_state_source_doc_title =
      (if b && truthyStr r.creditor_registration_state &&
          !truthyStr facts.creditor_registration_state_from_doc then
        some title
      else facts.creditor_registration_state_source_doc_title) := by
  unfold applyRegState
  split <;> exact ⟨rfl, rfl⟩

lemma mergeScalarFacts_orig (b : Bool) (facts : CaseFacts) (title : String)
    (r : LLMResponseData) :
    (mergeScalarFacts b facts title r).original_creditor_name_from_doc =
      (if truthyStr r.original_creditor_name &&
          !truthyStr facts.original_creditor_name_from_doc then
        r.original_creditor_name
      else facts.original_creditor_name_from_doc) ∧
    (mergeScalarFacts b facts title r).original_creditor_name_source_doc_title =
      (if truthyStr r.original_creditor_name &&
          !truthyStr facts.original_creditor_name_from_doc then
        some title
      else facts.original_creditor_name_source_doc_title) := by
  unfold mergeScalarFacts
  rw [(applyRegState_others b _ title r).1, (applyRegState_others b _ title r).2.1,
    (applyCredAddr_others _ title r).1, (applyCredAddr_others _ title r).2.1,
    (applyOrigName_orig facts title r).1, (applyOrigName_orig facts title r).2]
  exact ⟨rfl, rfl⟩

lemma mergeScalarFacts_addr (b : Bool) (facts : CaseFacts) (title : String)
    (r : LLMResponseData) :
    (mergeScalarFacts b facts title r).creditor_address_from_doc =
      (if truthyStr r.creditor_address &&
          !truthyStr facts.creditor_address_from_doc then
        r.creditor_address
      else facts.creditor_address_from_doc) ∧
    (mergeScalarFacts b facts title r).creditor_address_source_doc_title =
      (if truthyStr r.creditor_address &&
          !truthyStr facts.creditor_address_from_doc then
        some title
      else facts.creditor_address_source_doc_title) := by
  unfold mergeScalarFacts
  rw [(applyRegState_others b _ title r).2.2.1, (applyRegState_others b _ title r).2.2.2,
    (applyCredAddr_addr _ title r).1, (applyCredAddr_addr _ title r).2,
    (applyOrigName_addr facts title r).1, (applyOrigName_addr facts title r).2.1]
  exact ⟨rfl, rfl⟩

lemma mergeScalarFacts_reg (b : Bool) (facts : CaseFacts) (title : String)
    (r : LLMResponseData) :
    (mergeScalarFacts b facts title r).creditor_registration_state_from_doc =
      (if b && truthyStr r.creditor_registration_state &&
          !truthyStr facts.creditor_registration_state_from_doc then
        r.creditor_registration_state
      else facts.creditor_registration_state_from_doc) ∧
    (mergeScalarFacts b facts title r).creditor_registration_state_source_doc_title =
      (if b && truthyStr r.creditor_registration_state &&
          !truthyStr facts.creditor_registration_state_from_doc then
        some title
      else facts.creditor_registration_state_source_doc_title) := by
  unfold mergeScalarFacts
  rw [(applyRegState_reg b _ title r).1, (applyRegState_reg b _ title r).2,
    (applyCredAddr_others _ title r).2.2.1, (applyCredAddr_others _ title r).2.2.2,
    (applyOrigName_addr facts title r).2.2.1, (applyOrigName_addr facts title r).2.2.2]
  exact ⟨rfl, rfl⟩

lemma mergeRun_nil (b : Bool) (facts : CaseFacts) : mergeRun b [] facts = facts := rfl

lemma mergeRun_cons (b : Bool) (d : DocExtraction) (rest : List DocExtraction)
    (facts : CaseFacts) :
    mergeRun b (d :: rest) facts =
      mergeRun b rest (mergeScalarFacts b facts d.original_title d.llm_data) := rfl

lemma mergeRun_orig_preserved (b : Bool) (docs : List DocExtraction) :
    ∀ facts : CaseFacts, truthyStr facts.original_creditor_name_from_doc = true →
      (mergeRun b docs facts).original_creditor_name_from_doc =
        facts.original_creditor_name_from_doc ∧
      (mergeRun b docs facts).original_creditor_name_source_doc_title =
        facts.original_creditor_name_source_doc_title := by
  induction docs with
  | nil => intro facts h; exact ⟨rfl, rfl⟩
  | cons d rest ih =>
    intro facts h
    rw [mergeRun_cons]
    have h1o : (mergeScalarFacts b facts d.original_title d.llm_data).original_creditor_name_from_doc =
        facts.original_creditor_name_from_doc := by
      rw [(mergeScalarFacts_orig b facts d.original_title d.llm_data).1]
      simp [h]
    have h1s : (mergeScalarFacts b facts d.original_title d.llm_data).original_creditor_name_source_doc_title =
        facts.original_creditor_name_source_doc_title := by
      rw [(mergeScalarFacts_orig b facts d.original_title d.llm_data).2]
      simp [h]
    have ht : truthyStr (mergeScalarFacts b facts d.original_title d.llm_data).original_creditor_name_from_doc = true := by
      rw [h1o]; exact h
    obtain ⟨p1, p2⟩ := ih (mergeScalarFacts b facts d.original_title d.llm_data) ht
    exact ⟨p1.trans h1o, p2.trans h1s⟩

lemma mergeRun_addr_preserved (b : Bool) (docs : List DocExtraction) :
    ∀ facts : CaseFacts, truthyStr facts.creditor_address_from_doc = true →
      (mergeRun b docs facts).creditor_address_from_doc =
        facts.creditor_address_from_doc ∧
      (mergeRun b docs facts).creditor_address_source_doc_title =
        facts.creditor_address_source_doc_title := by
  induction docs with
  | nil => intro facts h; exact ⟨rfl, rfl⟩
  | cons d rest ih =>
    intro facts h
    rw [mergeRun_cons]
    have h1o : (mergeScalarFacts b facts d.original_title d.llm_data).creditor_address_from_doc =
        facts.creditor_address_from_doc := by
      rw [(mergeScalarFacts_addr b facts d.original_title d.llm_data).1]
      simp [h]
    have h1s : (mergeScalarFacts b facts d.original_title d.llm_data).creditor_address_source_doc_title =
        facts.creditor_address_source_doc_title := by
      rw [(mergeScalarFacts_addr b facts d.original_title d.llm_data).2]
      simp [h]
    have ht : truthyStr (mergeScalarFacts b facts d.original_title d.llm_data).creditor_address_from_doc = true := by
      rw [h1o]; exact h
    obtain ⟨p1, p2⟩ := ih (mergeScalarFacts b facts d.original_title d.llm_data) ht
    exact ⟨p1.trans h1o, p2.trans h1s⟩

lemma mergeRun_reg_preserved (b : Bool) (docs : List DocExtraction) :
    ∀ facts : CaseFacts, truthyStr facts.creditor_registration_state_from_doc = true →
      (mergeRun b docs facts).creditor_registration_state_from_doc =
        facts.creditor_registration_state_from_doc ∧
      (mergeRun b docs facts).creditor_registration_state_source_doc_title =
        facts.creditor_registration_state_source_doc_title := by
  induction docs with
  | nil => intro facts h; exact ⟨rfl, rfl⟩
  | cons d rest ih =>
    intro facts h
    rw [mergeRun_cons]
    have h1o : (mergeScalarFacts b facts d.original_title d.llm_data).creditor_registration_state_from_doc =
        facts.creditor_registration_state_from_doc := by
      rw [(mergeScalarFacts_reg b facts d.original_title d.llm_data).1]
      simp [h]
    have h1s : (mergeScalarFacts b facts d.original_title d.llm_data).creditor_registration_state_source_doc_title =
        facts.creditor_registration_state_source_doc_title := by
      rw [(mergeScalarFacts_reg b facts d.original_title d.llm_data).2]
      simp [h]
    have ht : truthyStr (mergeScalarFacts b facts d.original_title d.llm_data).creditor_registration_state_from_doc = true := by
      rw [h1o]; exact h
    obtain ⟨p1, p2⟩ := ih (mergeScalarFacts b facts d.original_title d.llm_data) ht
    exact ⟨p1.trans h1o, p2.trans h1s⟩

lemma mergeRun_orig_first (b : Bool) (docs : List DocExtraction) :
    ∀ facts : CaseFacts, truthyStr facts.original_creditor_name_from_doc = false →
      (mergeRun b docs facts).original_creditor_name_from_doc =
        (match docs.find? (fun d => truthyStr d.llm_data.original_creditor_name) with
         | some d => d.llm_data.original_creditor_name
         | none => facts.original_creditor_name_from_doc) ∧
      (mergeRun b docs facts).original_creditor_name_source_doc_title =
        (match docs.find? (fun d => truthyStr d.llm_data.original_creditor_name) with
         | some d => some d.original_title
         | none => facts.original_creditor_name_source_doc_title) := by
  induction docs with
  | nil => intro facts h; exact ⟨rfl, rfl⟩
  | cons d rest ih =>
    intro facts h
    rw [mergeRun_cons]
    by_cases hd : truthyStr d.llm_data.original_creditor_name = true
    · have hfind : (d :: rest).find? (fun x => truthyStr x.llm_data.original_creditor_name) = some d :=
        List.find?_cons_of_pos rest hd
      have hcond : (truthyStr d.llm_data.original_creditor_name &&
          !truthyStr facts.original_creditor_name_from_doc) = true := by
        simp [hd, h]
      have h1o : (mergeScalarFacts b facts d.original_title d.llm_data).original_creditor_name_from_doc =
          d.llm_data.original_creditor_name := by
        rw [(mergeScalarFacts_orig b facts d.original_title d.llm_data).1, if_pos hcond]
      have h1s : (mergeScalarFacts b facts d.original_title d.llm_data).original_creditor_name_source_doc_title =
          some d.original_title := by
        rw [(mergeScalarFacts_orig b facts d.original_title d.llm_data).2, if_pos hcond]
      have ht : truthyStr (mergeScalarFacts b facts d.original_title d.llm_data).original_creditor_name_from_doc = true := by
        rw [h1o]; exact hd
      obtain ⟨p1, p2⟩ := mergeRun_orig_preserved b rest
        (mergeScalarFacts b facts d.original_title d.llm_data) ht
      rw [hfind]
      exact ⟨p1.trans h1o, p2.trans h1s⟩
    · have hd0 : truthyStr d.llm_data.original_creditor_name = false :=
        Bool.eq_false_iff.mpr hd
      have hfind : (d :: rest).find? (fun x => truthyStr x.llm_data.original_creditor_name) =
          rest.find? (fun x => truthyStr x.llm_data.original_creditor_name) :=
        List.find?_cons_of_neg rest hd
      have h1o : (mergeScalarFacts b facts d.original_title d.llm_data).original_creditor_name_from_doc =
          facts.original_creditor_name_from_doc := by
        rw [(mergeScalarFacts_orig b facts d.original_title d.llm_data).1]
        simp [hd0]
      have h1s : (mergeScalarFacts b facts d.original_title d.llm_data).original_creditor_name_source_doc_title =
          facts.original_creditor_name_source_doc_title := by
        rw [(mergeScalarFacts_orig b facts d.original_title d.llm_data).2]
        simp [hd0]
      have hfalse : truthyStr (mergeScalarFacts b facts d.original_title d.llm_data).original_creditor_name_from_doc = false := by
        rw [h1o]; exact h
      obtain ⟨p1, p2⟩ := ih (mergeScalarFacts b facts d.original_title d.llm_data) hfalse
      rw [hfind]
      cases hfr : rest.find? (fun x => truthyStr x.llm_data.original_creditor_name) with
      | none =>
        rw [hfr] at p1 p2
        exact ⟨p1.trans h1o, p2.trans h1s⟩
      | some x =>
        rw [hfr] at p1 p2
        exact ⟨p1, p2⟩

lemma mergeRun_addr_first (b : Bool) (docs : List DocExtraction) :
    ∀ facts : CaseFacts, truthyStr facts.creditor_address_from_doc = false →
      (mergeRun b docs facts).creditor_address_from_doc =
        (match docs.find? (fun d => truthyStr d.llm_data.creditor_address) with
         | some d => d.llm_data.creditor_address
         | none => facts.creditor_address_from_doc) ∧
      (mergeRun b docs facts).creditor_address_source_doc_title =
        (match docs.find? (fun d => truthyStr d.llm_data.creditor_address) with
         | some d => some d.original_title
         | none => facts.creditor_address_source_doc_title) := by
  induction docs with
  | nil => intro facts h; exact ⟨rfl, rfl⟩
  | cons d rest ih =>
    intro facts h
    rw [mergeRun_cons]
    by_cases hd : truthyStr d.llm_data.creditor_address = true
    · have hfind : (d :: rest).find? (fun x => truthyStr x.llm_data.creditor_address) = some d :=
        List.find?_cons_of_pos rest hd
      have hcond : (truthyStr d.llm_data.creditor_address &&
          !truthyStr facts.creditor_address_from_doc) = true := by
        simp [hd, h]
      have h1o : (mergeScalarFacts b facts d.original_title d.llm_data).creditor_address_from_doc =
          d.llm_data.creditor_address := by
        rw [(mergeScalarFacts_addr b facts d.original_title d.llm_data).1, if_pos hcond]
      have h1s : (mergeScalarFacts b facts d.original_title d.llm_data).creditor_address_source_doc_title =
          some d.original_title := by
        rw [(mergeScalarFacts_addr b facts d.original_title d.llm_data).2, if_pos hcond]
      have ht : truthyStr (mergeScalarFacts b facts d.original_title d.llm_data).creditor_address_from_doc = true := by
        rw [h1o]; exact hd
      obtain ⟨p1, p2⟩ := mergeRun_addr_preserved b rest
        (mergeScalarFacts b facts d.original_title d.llm_data) ht
      rw [hfind]
      exact ⟨p1.trans h1o, p2.trans h1s⟩
    · have hd0 : truthyStr d.llm_data.creditor_address = false :=
        Bool.eq_false_iff.mpr hd
      have hfind : (d :: rest).find? (fun x => truthyStr x.llm_data.creditor_address) =
          rest.find? (fun x => truthyStr x.llm_data.creditor_address) :=
        List.find?_cons_of_neg rest hd
      have h1o : (mergeScalarFacts b facts d.original_title d.llm_data).creditor_address_from_doc =
          facts.creditor_address_from_doc := by
        rw [(mergeScalarFacts_addr b facts d.original_title d.llm_data).1]
        simp [hd0]
      have h1s : (mergeScalarFacts b facts d.original_title d.llm_data).creditor_address_source_doc_title =
          facts.creditor_address_source_doc_title := by
        rw [(mergeScalarFacts_addr b facts d.original_title d.llm_data).2]
        simp [hd0]
      have hfalse : truthyStr (mergeScalarFacts b facts d.original_title d.llm_data).creditor_address_from_doc = false := by
        rw [h1o]; exact h
      obtain ⟨p1, p2⟩ := ih (mergeScalarFacts b facts d.original_title d.llm_data) hfalse
      rw [hfind]
      cases hfr : rest.find? (fun x => truthyStr x.llm_data.creditor_address) with
      | none =>
        rw [hfr] at p1 p2
        exact ⟨p1.trans h1o, p2.trans h1s⟩
      | some x =>
        rw [hfr] at p1 p2
        exact ⟨p1, p2⟩

lemma mergeRun_reg_first (docs : List DocExtraction) :
    ∀ facts : CaseFacts, truthyStr facts.creditor_registration_state_from_doc = false →
      (mergeRun true docs facts).creditor_registration_state_from_doc =
        (match docs.find? (fun d => truthyStr d.llm_data.creditor_registration_state) with
         | some d => d.llm_data.creditor_registration_state
         | none => facts.creditor_registration_state_from_doc) ∧
      (mergeRun true docs facts).creditor_registration_state_source_doc_title =
        (match docs.find? (fun d => truthyStr d.llm_data.creditor_registration_state) with
         | some d => some d.original_title
         | none => facts.creditor_registration_state_source_doc_title) := by
  induction docs with
  | nil => intro facts h; exact ⟨rfl, rfl⟩
  | cons d rest ih =>
    intro facts h
    rw [mergeRun_cons]
    by_cases hd : truthyStr d.llm_data.creditor_registration_state = true
    · have hfind : (d :: rest).find? (fun x => truthyStr x.llm_data.creditor_registration_state) = some d :=
        List.find?_cons_of_pos rest hd
      have hcond : (true && truthyStr d.llm_data.creditor_registration_state &&
          !truthyStr facts.creditor_registration_state_from_doc) = true := by
        simp [hd, h]
      have h1o : (mergeScalarFacts true facts d.original_title d.llm_data).creditor_registration_state_from_doc =
          d.llm_data.creditor_registration_state := by
        rw [(mergeScalarFacts_reg true facts d.original_title d.llm_data).1, if_pos hcond]
      have h1s : (mergeScalarFacts true facts d.original_title d.llm_data).creditor_registration_state_source_doc_title =
          some d.original_title := by
        rw [(mergeScalarFacts_reg true facts d.original_title d.llm_data).2, if_pos hcond]
      have ht : truthyStr (mergeScalarFacts true facts d.original_title d.llm_data).creditor_registration_state_from_doc = true := by
        rw [h1o]; exact hd
      obtain ⟨p1, p2⟩ := mergeRun_reg_preserved true rest
        (mergeScalarFacts true facts d.original_title d.llm_data) ht
      rw [hfind]
      exact ⟨p1.trans h1o, p2.trans h1s⟩
    · have hd0 : truthyStr d.llm_data.creditor_registration_state = false :=
        Bool.eq_false_iff.mpr hd
      have hfind : (d :: rest).find? (fun x => truthyStr x.llm_data.creditor_registration_state) =
          rest.find? (fun x => truthyStr x.llm_data.creditor_registration_state) :=
        List.find?_cons_of_neg rest hd
      have h1o : (mergeScalarFacts true facts d.original_title d.llm_data).creditor_registration_state_from_doc =
          facts.creditor_registration_state_from_doc := by
        rw [(mergeScalarFacts_reg true facts d.original_title d.llm_data).1]
        simp [hd0]
      have h1s : (mergeScalarFacts true facts d.original_title d.llm_data).creditor_registration_state_source_doc_title =
          facts.creditor_registration_state_source_doc_title := by
        rw [(mergeScalarFacts_reg true facts d.original_title d.llm_data).2]
        simp [hd0]
      have hfalse : truthyStr (mergeScalarFacts true facts d.original_title d.llm_data).creditor_registration_state_from_doc = false := by
        rw [h1o]; exact h
      obtain ⟨p1, p2⟩ := ih (mergeScalarFacts true facts d.original_title d.llm_data) hfalse
      rw [hfind]
      cases hfr : rest.find? (fun x => truthyStr x.llm_data.creditor_registration_state) with
      | none =>
        rw [hfr] at p1 p2
        exact ⟨p1.trans h1o, p2.trans h1s⟩
      | some x =>
        rw [hfr] at p1 p2
        exact ⟨p1, p2⟩

lemma mergeRun_reg_not_business (docs : List DocExtraction) :
    ∀ facts : CaseFacts,
      (mergeRun false docs facts).creditor_registration_state_from_doc =
        facts.creditor_registration_state_from_doc ∧
      (mergeRun false docs facts).creditor_registration_state_source_doc_title =
        facts.creditor_registration_state_source_doc_title := by
  induction docs with
  | nil => intro facts; exact ⟨rfl, rfl⟩
  | cons d rest ih =>
    intro facts
    rw [mergeRun_cons]
    have h1o : (mergeScalarFacts false facts d.original_title d.llm_data).creditor_registration_state_from_doc =
        facts.creditor_registration_state_from_doc := by
      rw [(mergeScalarFacts_reg false facts d.original_title d.llm_data).1]
      simp
    have h1s : (mergeScalarFacts false facts d.original_title d.llm_data).creditor_registration_state_source_doc_title =
        facts.creditor_registration_state_source_doc_title := by
      rw [(mergeScalarFacts_reg false facts d.original_title d.llm_data).2]
      simp
    obtain ⟨p1, p2⟩ := ih (mergeScalarFacts false facts d.original_title d.llm_data)
    exact ⟨p1.trans h1o, p2.trans h1s⟩

/-- An extraction result that supplies only a registration state. -/
def regOnlyResp : LLMResponseData := ⟨none, none, [], some ("CA")⟩

/-- A single processed document supplying a registration state. -/
def c3Doc : DocExtraction := ⟨"DOC ONE", regOnlyResp⟩

/-- C3 counterexample: the claim asserts that for every case-level scalar
fact the final resolved value equals the value supplied by the first
document that supplied it.  For the registration state this fails when the
case is not a business: the merge block is guarded by
`case_db_obj.is_business` (`app/services/case_processor.py` line 97), so a
document supplying the registration state CA leaves the fact unresolved
(`none`) rather than resolving it to CA with that document's title. -/
theorem c3_counterexample :
    truthyStr c3Doc.llm_data.creditor_registration_state = true ∧
    (mergeRun false [c3Doc] emptyCaseFacts).creditor_registration_state_from_doc = none ∧
    (mergeRun false [c3Doc] emptyCaseFacts).creditor_registration_state_source_doc_title =
      none := by
  decide

/-- C3 (amended): first-writer-wins for the case-level scalar facts.  Once a
fact is set it is never overwritten by any later document (first three
conjuncts, for any starting state).  Starting from a fresh case: the
original creditor name and the creditor address resolve to the value of the
first document, in processing order, that supplied a truthy value, with
that document's title recorded as the source; the registration state does
the same when the case is a business, and is never recorded when the case
is not a business. -/
theorem c3_first_writer_wins (b : Bool) (docs : List DocExtraction) :
    (∀ facts : CaseFacts, truthyStr facts.original_creditor_name_from_doc = true →
      (mergeRun b docs facts).original_creditor_name_from_doc =
        facts.original_creditor_name_from_doc ∧
      (mergeRun b docs facts).original_creditor_name_source_doc_title =
        facts.original_creditor_name_source_doc_title) ∧
    (∀ facts : CaseFacts, truthyStr facts.creditor_address_from_doc = true →
      (mergeRun b docs facts).creditor_address_from_doc =
        facts.creditor_address_from_doc ∧
      (mergeRun b docs facts).creditor_address_source_doc_title =
        facts.creditor_address_source_doc_title) ∧
    (∀ facts : CaseFacts, truthyStr facts.creditor_registration_state_from_doc = true →
      (mergeRun b docs facts).creditor_registration_state_from_doc =
        facts.creditor_registration_state_from_doc ∧
      (mergeRun b docs facts).creditor_registration_state_source_doc_title =
        facts.creditor_registration_state_source_doc_title) ∧
    ((mergeRun b docs emptyCaseFacts).original_creditor_name_from_doc =
      (docs.find? (fun d => truthyStr d.llm_data.original_creditor_name)).bind
        (fun d => d.llm_data.original_creditor_name) ∧
     (mergeRun b docs emptyCaseFacts).original_creditor_name_source_doc_title =
      (docs.find? (fun d => truthyStr d.llm_data.original_creditor_name)).map
        (fun d => d.original_title)) ∧
    ((mergeRun b docs emptyCaseFacts).creditor_address_from_doc =
      (docs.find? (fun d => truthyStr d.llm_data.creditor_address)).bind
        (fun d => d.llm_data.creditor_address) ∧
     (mergeRun b docs emptyCaseFacts).creditor_address_source_doc_title =
      (docs.find? (fun d => truthyStr d.llm_data.creditor_address)).map
        (fun d => d.original_title)) ∧
    (b = true →
      (mergeRun b docs emptyCaseFacts).creditor_registration_state_from_doc =
        (docs.find? (fun d => truthyStr d.llm_data.creditor_registration_state)).bind
          (fun d => d.llm_data.creditor_registration_state) ∧
      (mergeRun b docs emptyCaseFacts).creditor_registration_state_source_doc_title =
        (docs.find? (fun d => truthyStr d.llm_data.creditor_registration_state)).map
          (fun d => d.original_title)) ∧
    (b = false →
      (mergeRun b docs emptyCaseFacts).creditor_registration_state_from_doc = none ∧
      (mergeRun b docs emptyCaseFacts).creditor_registration_state_source_doc_title =
        none) := by
  refine ⟨mergeRun_orig_preserved b docs, mergeRun_addr_preserved b docs,
    mergeRun_reg_preserved b docs, ?_, ?_, ?_, ?_⟩
  · obtain ⟨p1, p2⟩ := mergeRun_orig_first b docs emptyCaseFacts rfl
    cases hf : docs.find? (fun d => truthyStr d.llm_data.original_creditor_name) with
    | none =>
      rw [hf] at p1 p2
      exact ⟨p1, p2⟩
    | some d =>
      rw [hf] at p1 p2
      exact ⟨p1, p2⟩
  · obtain ⟨p1, p2⟩ := mergeRun_addr_first b docs emptyCaseFacts rfl
    cases hf : docs.find? (fun d => truthyStr d.llm_data.creditor_address) with
    | none =>
      rw [hf] at p1 p2
      exact ⟨p1, p2⟩
    | some d =>
      rw [hf] at p1 p2
      exact ⟨p1, p2⟩
  · intro hb
    subst hb
    obtain ⟨p1, p2⟩ := mergeRun_reg_first docs emptyCaseFacts rfl
    cases hf : docs.find? (fun d => truthyStr d.llm_data.creditor_registration_state) with
    | none =>
      rw [hf] at p1 p2
      exact ⟨p1, p2⟩
    | some d =>
      rw [hf] at p1 p2
      exact ⟨p1, p2⟩
  · intro hb
    subst hb
    exact mergeRun_reg_not_business docs emptyCaseFacts

/-- Two documents claiming the same facts with different values. -/
def c3DocA : DocExtraction := ⟨"FIRST DOC", ⟨some ("ACME LLC"), none, [], some ("CA")⟩⟩

/-- The later of the two conflicting documents. -/
def c3DocB : DocExtraction :=
  ⟨"SECOND DOC", ⟨some ("ACME CORP"), some ("1 MAIN ST"), [], some ("NY")⟩⟩

/-- Witness for C3's amended theorem at a concrete business case with two
conflicting documents: the first document's values and title win. -/
theorem c3_first_writer_wins_witness :
    (mergeRun true [c3DocA, c3DocB] emptyCaseFacts).creditor_registration_state_from_doc =
      some ("CA") ∧
    (mergeRun true [c3DocA, c3DocB] emptyCaseFacts).creditor_registration_state_source_doc_title =
      some ("FIRST DOC") ∧
    (mergeRun true [c3DocA, c3DocB] emptyCaseFacts).original_creditor_name_from_doc =
      some ("ACME LLC") := by
  have h6 := (c3_first_writer_wins true [c3DocA, c3DocB]).2.2.2.2.2.1 rfl
  have h4 := (c3_first_writer_wins true [c3DocA, c3DocB]).2.2.2.1
  refine ⟨?_, ?_, ?_⟩
  · rw [h6.1]; decide
  · rw [h6.2]; decide
  · rw [h4.1]; decide

/-- The case-level found flags threaded through the extraction loop of
`CaseProcessorService.process_single_case`
(`app/services/case_processor.py` lines 192-204): `foundName` is
`found_original_creditor_name_for_case`, `foundAddr` is
`found_creditor_address_for_case`, `foundReg` is `found_reg_state_for_case`,
and `foundParties` is the set of party names mapped to `True` in
`found_party_addresses_for_case`. -/
structure CaseFlags where
  foundName : Bool
  foundAddr : Bool
  foundReg : Bool
  foundParties : List String
deriving DecidableEq, Repr

/-- The `all_case_info_found_prior_to_this_doc` test of
`app/services/case_processor.py` lines 293-300. -/
def allCaseInfoFound (extract_parties is_business : Bool) (targets : List String)
    (f : CaseFlags) : Bool :=
  let allAssoc :=
    if extract_parties && !targets.isEmpty then
      targets.all (fun n => f.foundParties.contains n)
    else true
  f.foundName && f.foundAddr && (!is_business || f.foundReg) && allAssoc

/-- The effect on the found flags of merging one extraction result
(`app/services/case_processor.py` lines 83-124): each flag is set exactly
when the corresponding first-writer-wins write happens, and a party name is
added to the found set when the document supplies a non-empty name/address
pair for a not-yet-resolved name. -/
def applyRespFlags (extract_parties is_business : Bool) (resp : LLMResponseData)
    (f : CaseFlags) : CaseFlags :=
  let f1 := if truthyStr resp.original_creditor_name && !f.foundName then
      { f with foundName := true } else f
  let f2 := if truthyStr resp.creditor_address && !f1.foundAddr then
      { f1 with foundAddr := true } else f1
  let f3 := if is_business && truthyStr resp.creditor_registration_state && !f2.foundReg then
      { f2 with foundReg := true } else f2
  if extract_parties && !resp.associated_parties.isEmpty then
    { f3 with
      foundParties := resp.associated_parties.foldl (fun acc p =>
        if !p.1.isEmpty && !p.2.isEmpty && !acc.contains p.1 then acc ++ [p.1]
        else acc) f3.foundParties }
  else f3

/-- The outcome of `_process_single_document_with_llm` for one document,
classified the way the loop's note matching does
(`app/services/case_processor.py` lines 322-334):
`fileMissing` is the early return of line 41 (service never called);
`convFailed` carries the File_Conversion_Failed note;
`hardFail` is a `None` extraction result;
`foundNothing` is the ran-but-found-no-requested-data note (empty result);
`success` carries the parsed extraction data. -/
inductive DocLLMOutcome
  | fileMissing
  | convFailed
  | hardFail
  | foundNothing
  | success (resp : LLMResponseData)
deriving DecidableEq, Repr

/-- One entry of `llm_bundle_docs` together with what the Document
Extraction Service would return for it. -/
structure BundleDoc where
  original_title : String
  outcome : DocLLMOutcome
deriving DecidableEq, Repr

/-- One non-skipped iteration of the extraction loop: the new flags, the
document status recorded in the summary, and whether the Document
Extraction Service was invoked. -/
def llmStep (extract_parties is_business : Bool) (f : CaseFlags) (d : BundleDoc) :
    CaseFlags × DocumentProcessingStatusEnum × Bool :=
  match d.outcome with
  | DocLLMOutcome.fileMissing => (f, DocumentProcessingStatusEnum.LLM_PROCESSING_ERROR, false)
  | DocLLMOutcome.convFailed => (f, DocumentProcessingStatusEnum.LLM_PREPARATION_FAILED, true)
  | DocLLMOutcome.hardFail => (f, DocumentProcessingStatusEnum.LLM_PROCESSING_ERROR, true)
  | DocLLMOutcome.foundNothing => (f, DocumentProcessingStatusEnum.LLM_EXTRACTION_FAILED, true)
  | DocLLMOutcome.success resp =>
    (applyRespFlags extract_parties is_business resp f,
      DocumentProcessingStatusEnum.LLM_EXTRACTION_SUCCESS, true)

/-- Result of running the extraction loop: the per-document statuses in
order, the final flags, and the titles for which the Document Extraction
Service was invoked. -/
structure ExtractLoopResult where
  statuses : List (String × DocumentProcessingStatusEnum)
  flags : CaseFlags
  invoked : List String
deriving DecidableEq, Repr

/-- The per-document extraction loop of
`CaseProcessorService.process_single_case`
(`app/services/case_processor.py` lines 288-336): before each document the
early-skip check runs; if everything is already found the document is
marked Skipped_Processing_Not_Needed and the service is not invoked,
otherwise the document is processed and its outcome recorded. -/
def extractLoop (extract_parties is_business : Bool) (targets : List String) :
    List BundleDoc → CaseFlags → ExtractLoopResult
  | [], f => ⟨[], f, []⟩
  | d :: rest, f =>
    if allCaseInfoFound extract_parties is_business targets f then
      let r := extractLoop extract_parties is_business targets rest f
      ⟨(d.original_title, DocumentProcessingStatusEnum.SKIPPED_PROCESSING_NOT_NEEDED) ::
        r.statuses, r.flags, r.invoked⟩
    else
      let s := llmStep extract_parties is_business f d
      let r := extractLoop extract_parties is_business targets rest s.1
      ⟨(d.original_title, s.2.1) :: r.statuses, r.flags,
        if s.2.2 then d.original_title :: r.invoked else r.invoked⟩

lemma extractLoop_cons_pos (extract_parties is_business : Bool) (targets : List String)
    (d : BundleDoc) (rest : List BundleDoc) (f : CaseFlags)
    (h : allCaseInfoFound extract_parties is_business targets f = true) :
    extractLoop extract_parties is_business targets (d :: rest) f =
      ⟨(d.original_title, DocumentProcessingStatusEnum.SKIPPED_PROCESSING_NOT_NEEDED) ::
          (extractLoop extract_parties is_business targets rest f).statuses,
        (extractLoop extract_parties is_business targets rest f).flags,
        (extractLoop extract_parties is_business targets rest f).invoked⟩ := by
  show (if allCaseInfoFound extract_parties is_business targets f then _ else _) = _
  rw [if_pos h]

lemma extractLoop_cons_neg (extract_parties is_business : Bool) (targets : List String)
    (d : BundleDoc) (rest : List BundleDoc) (f : CaseFlags)
    (h : allCaseInfoFound extract_parties is_business targets f = false) :
    extractLoop extract_parties is_business targets (d :: rest) f =
      ⟨(d.original_title, (llmStep extract_parties is_business f d).2.1) ::
          (extractLoop extract_parties is_business targets rest
            (llmStep extract_parties is_business f d).1).statuses,
        (extractLoop extract_parties is_business targets rest
          (llmStep extract_parties is_business f d).1).flags,
        if (llmStep extract_parties is_business f d).2.2 then
          d.original_title ::
            (extractLoop extract_parties is_business targets rest
              (llmStep extract_parties is_business f d).1).invoked
        else
          (extractLoop extract_parties is_business targets rest
            (llmStep extract_parties is_business f d).1).invoked⟩ := by
  show (if allCaseInfoFound extract_parties is_business targets f then _ else _) = _
  rw [h]
  simp

lemma extractLoop_all_found (extract_parties is_business : Bool) (targets : List String)
    (docs : List BundleDoc) :
    ∀ f : CaseFlags, allCaseInfoFound extract_parties is_business targets f = true →
      extractLoop extract_parties is_business targets docs f =
        ⟨docs.map (fun d => (d.original_title,
          DocumentProcessingStatusEnum.SKIPPED_PROCESSING_NOT_NEEDED)), f, []⟩ := by
  induction docs with
  | nil => intro f h; rfl
  | cons d rest ih =>
    intro f h
    rw [extractLoop_cons_pos extract_parties is_business targets d rest f h, ih f h]
    simp

lemma extractLoop_append (extract_parties is_business : Bool) (targets : List String)
    (suf pre : List BundleDoc) :
    ∀ f : CaseFlags,
      extractLoop extract_parties is_business targets (pre ++ suf) f =
        ⟨(extractLoop extract_parties is_business targets pre f).statuses ++
            (extractLoop extract_parties is_business targets suf
              (extractLoop extract_parties is_business targets pre f).flags).statuses,
          (extractLoop extract_parties is_business targets suf
            (extractLoop extract_parties is_business targets pre f).flags).flags,
          (extractLoop extract_parties is_business targets pre f).invoked ++
            (extractLoop extract_parties is_business targets suf
              (extractLoop extract_parties is_business targets pre f).flags).invoked⟩ := by
  induction pre with
  | nil => intro f; rfl
  | cons d rest ih =>
    intro f
    rw [List.cons_append]
    by_cases h : allCaseInfoFound extract_parties is_business targets f = true
    · rw [extractLoop_cons_pos extract_parties is_business targets d (rest ++ suf) f h,
        extractLoop_cons_pos extract_parties is_business targets d rest f h, ih f]
      simp
    · have h0 : allCaseInfoFound extract_parties is_business targets f = false :=
        Bool.eq_false_iff.mpr h
      rw [extractLoop_cons_neg extract_parties is_business targets d (rest ++ suf) f h0,
        extractLoop_cons_neg extract_parties is_business targets d rest f h0,
        ih ((llmStep extract_parties is_business f d).1)]
      cases hs : (llmStep extract_parties is_business f d).2.2 <;> simp [hs]

/-- C4: if, at the start of some iteration of the extraction loop, all
needed facts are already resolved (the early-skip condition over the flags
produced by the prefix of documents already processed), then that document
and every later document is marked Skipped_Processing_Not_Needed, the flags
never change again, and the Document Extraction Service is never invoked
for any of them. -/
theorem c4_early_skip (extract_parties is_business : Bool) (targets : List String)
    (pre suf : List BundleDoc) (f0 : CaseFlags)
    (h : allCaseInfoFound extract_parties is_business targets
      (extractLoop extract_parties is_business targets pre f0).flags = true) :
    extractLoop extract_parties is_business targets (pre ++ suf) f0 =
      ⟨(extractLoop extract_parties is_business targets pre f0).statuses ++
          suf.map (fun d => (d.original_title,
            DocumentProcessingStatusEnum.SKIPPED_PROCESSING_NOT_NEEDED)),
        (extractLoop extract_parties is_business targets pre f0).flags,
        (extractLoop extract_parties is_business targets pre f0).invoked⟩ := by
  rw [extractLoop_append extract_parties is_business targets suf pre f0,
    extractLoop_all_found extract_parties is_business targets suf
      (extractLoop extract_parties is_business targets pre f0).flags h]
  simp

/-- A first document that supplies the name and address. -/
def c4DocA : BundleDoc :=
  ⟨"DOC A", DocLLMOutcome.success ⟨some ("ACME LLC"), some ("1 MAIN ST"), [], none⟩⟩

/-- A later document with a different name on offer. -/
def c4DocB : BundleDoc :=
  ⟨"DOC B", DocLLMOutcome.success ⟨some ("OTHER NAME"), none, [], none⟩⟩

/-- A later document whose extraction would fail hard. -/
def c4DocC : BundleDoc := ⟨"DOC C", DocLLMOutcome.hardFail⟩

/-- Witness for C4 at a concrete run: after DOC A resolves everything (a
non-business case with party extraction off), DOC B and DOC C are both
skipped and the service is only ever invoked for DOC A. -/
theorem c4_early_skip_witness :
    (extractLoop false false [] ([c4DocA] ++ [c4DocB, c4DocC]) ⟨false, false, false, []⟩).statuses =
      [(("DOC A"), DocumentProcessingStatusEnum.LLM_EXTRACTION_SUCCESS),
       (("DOC B"), DocumentProcessingStatusEnum.SKIPPED_PROCESSING_NOT_NEEDED),
       (("DOC C"), DocumentProcessingStatusEnum.SKIPPED_PROCESSING_NOT_NEEDED)] ∧
    (extractLoop false false [] ([c4DocA] ++ [c4DocB, c4DocC]) ⟨false, false, false, []⟩).invoked =
      [("DOC A")] := by
  have h := c4_early_skip false false [] [c4DocA] [c4DocB, c4DocC]
    ⟨false, false, false, []⟩ (by decide)
  rw [h]
  exact ⟨by decide, by decide⟩

/-- Note written by the safeguard for a document stuck in
Identified_For_Processing (`app/services/unicourt_handler.py` line 999). -/
def safeguardNoteIdentified : String :=
  "Document was not properly processed through the ordering phase."

/-- Note written by the safeguard for a document stuck in
Ordering_Completed (`app/services/unicourt_handler.py` line 1004). -/
def safeguardNoteOrdered : String :=
  "Document was ordered successfully but failed to appear in CrowdSourced section for download."

/-- The per-entry transform of the final safeguard pass of
`UnicourtHandler.identify_and_process_documents_on_case_page`
(`app/services/unicourt_handler.py` lines 994-1004): any entry still in an
intermediate status is forced to Ordering_Failed. -/
def safeguardItem (s : SummaryItem) : SummaryItem :=
  if s.status = DocumentProcessingStatusEnum.IDENTIFIED_FOR_PROCESSING then
    { s with
      status := DocumentProcessingStatusEnum.ORDERING_FAILED,
      notes := some safeguardNoteIdentified }
  else if s.status = DocumentProcessingStatusEnum.ORDERING_COMPLETED then
    { s with
      status := DocumentProcessingStatusEnum.ORDERING_FAILED,
      notes := some safeguardNoteOrdered }
  else s

/-- The full safeguard pass run over the assembled summary just before
`identify_and_process_documents_on_case_page` returns
(`app/services/unicourt_handler.py` lines 991-1011). -/
def finalSafeguard (l : List SummaryItem) : List SummaryItem := l.map safeguardItem

/-- The only other return of the document resolver: the early return on a
Documents-tab navigation failure (`app/services/unicourt_handler.py`
line 736). -/
def docsTabNavFailureSummary (note : String) : List SummaryItem :=
  [⟨"Document Tab Navigation", none,
    DocumentProcessingStatusEnum.GENERIC_PROCESSING_ERROR, some note⟩]

/-- C9: on every return path of the document resolver no summary entry is
left in a non-terminal intermediate status.  After the safeguard pass no
entry is Identified_For_Processing or Ordering_Completed; each entry that
was in one of those statuses is forced to Ordering_Failed (name and key
untouched); every other entry is returned unchanged; and the early-return
summary for a Documents-tab navigation failure contains no intermediate
status either. -/
theorem c9_safeguard_forces_terminal (l : List SummaryItem) :
    (∀ s ∈ finalSafeguard l,
      s.status ≠ DocumentProcessingStatusEnum.IDENTIFIED_FOR_PROCESSING ∧
      s.status ≠ DocumentProcessingStatusEnum.ORDERING_COMPLETED) ∧
    (∀ s ∈ l,
      (s.status = DocumentProcessingStatusEnum.IDENTIFIED_FOR_PROCESSING ∨
        s.status = DocumentProcessingStatusEnum.ORDERING_COMPLETED) →
      (safeguardItem s).status = DocumentProcessingStatusEnum.ORDERING_FAILED ∧
      (safeguardItem s).document_name = s.document_name ∧
      (safeguardItem s).unicourt_doc_key = s.unicourt_doc_key) ∧
    (∀ s ∈ l,
      s.status ≠ DocumentProcessingStatusEnum.IDENTIFIED_FOR_PROCESSING →
      s.status ≠ DocumentProcessingStatusEnum.ORDERING_COMPLETED →
      safeguardItem s = s) ∧
    (∀ note : String, ∀ s ∈ docsTabNavFailureSummary note,
      s.status ≠ DocumentProcessingStatusEnum.IDENTIFIED_FOR_PROCESSING ∧
      s.status ≠ DocumentProcessingStatusEnum.ORDERING_COMPLETED) := by
  refine ⟨?_, ?_, ?_, ?_⟩
  · intro s hs
    obtain ⟨t, _, rfl⟩ := List.mem_map.mp hs
    unfold safeguardItem
    split_ifs <;> simp_all
  · intro s _ hmid
    unfold safeguardItem
    rcases hmid with h | h
    · rw [if_pos h]
      exact ⟨rfl, rfl, rfl⟩
    · by_cases h1 : s.status = DocumentProcessingStatusEnum.IDENTIFIED_FOR_PROCESSING
      · rw [if_pos h1]
        exact ⟨rfl, rfl, rfl⟩
      · rw [if_neg h1, if_pos h]
        exact ⟨rfl, rfl, rfl⟩
  · intro s _ h1 h2
    unfold safeguardItem
    rw [if_neg h1, if_neg h2]
  · intro note s hs
    rcases List.mem_singleton.mp hs with rfl
    exact ⟨by simp, by simp⟩

/-- Witness for C9 at a concrete summary: a document believed ordered but
never downloaded is forced to Ordering_Failed. -/
theorem c9_safeguard_witness :
    (safeguardItem ⟨"STUCK DOC", none,
        DocumentProcessingStatusEnum.ORDERING_COMPLETED, none⟩).status =
      DocumentProcessingStatusEnum.ORDERING_FAILED :=
  ((c9_safeguard_forces_terminal
      [⟨"STUCK DOC", none, DocumentProcessingStatusEnum.ORDERING_COMPLETED, none⟩]).2.1
    ⟨"STUCK DOC", none, DocumentProcessingStatusEnum.ORDERING_COMPLETED, none⟩
    (List.mem_singleton.mpr rfl) (Or.inr rfl)).1

/-- One free paid-section document queued for ordering
(`docs_to_order_from_paid` of `app/services/unicourt_handler.py` line 740);
`checkboxOk` records whether the checkbox interaction of lines 806-814
succeeds for it. -/
structure PaidDoc where
  original_title : String
  checkboxOk : Bool
deriving DecidableEq, Repr

/-- The observable outcome of one chunk-level ordering attempt:
whether the order button is available (line 817), whether all loading
indicators appear (lines 830-848) and whether they all disappear
(lines 852-872). -/
structure ChunkOutcome where
  buttonAvailable : Bool
  indicatorsAppeared : Bool
  indicatorsDisappeared : Bool
deriving DecidableEq, Repr

/-- Set every still-pending (Identified_For_Processing) entry to the given
status, leaving every other entry unchanged — the shape of each
`if doc_info_to_order.processing_status == IDENTIFIED_FOR_PROCESSING` pass
in `app/services/unicourt_handler.py` lines 838-872. -/
def mapPendingTo (st : DocumentProcessingStatusEnum)
    (l : List (String × DocumentProcessingStatusEnum)) :
    List (String × DocumentProcessingStatusEnum) :=
  l.map (fun e =>
    if e.2 = DocumentProcessingStatusEnum.IDENTIFIED_FOR_PROCESSING then (e.1, st)
    else e)

/-- The processing of one chunk of free documents
(`app/services/unicourt_handler.py` lines 799-878): select checkboxes
(a failed interaction marks that document Ordering_Failed), then either
order the chunk — marking still-pending documents Ordering_Failed when the
indicators fail to appear or to disappear, and Ordering_Completed when both
waits succeed — or, when the order button is unavailable, mark every
document of the chunk Ordering_Failed. -/
def processChunk (chunk : List PaidDoc) (oc : ChunkOutcome) :
    List (String × DocumentProcessingStatusEnum) :=
  let s1 := chunk.map (fun d => (d.original_title,
    if d.checkboxOk then DocumentProcessingStatusEnum.IDENTIFIED_FOR_PROCESSING
    else DocumentProcessingStatusEnum.ORDERING_FAILED))
  if oc.buttonAvailable then
    let s2 := if oc.indicatorsAppeared then s1
      else mapPendingTo DocumentProcessingStatusEnum.ORDERING_FAILED s1
    if oc.indicatorsDisappeared then
      mapPendingTo DocumentProcessingStatusEnum.ORDERING_COMPLETED s2
    else mapPendingTo DocumentProcessingStatusEnum.ORDERING_FAILED s2
  else
    chunk.map (fun d => (d.original_title, DocumentProcessingStatusEnum.ORDERING_FAILED))

/-- The chunk loop `for i in range(0, len(docs_to_order_from_paid),
self.settings.PAID_DOC_ORDER_CHUNK_SIZE)` of
`app/services/unicourt_handler.py` lines 799-878: consecutive slices of
`chunkSize` documents, the final slice possibly shorter; `outcomes i` is
the page behaviour observed while ordering the i-th chunk. -/
def orderChunksLoop (chunkSize : Nat) (outcomes : Nat → ChunkOutcome) (idx : Nat)
    (docs : List PaidDoc) : List (String × DocumentProcessingStatusEnum) :=
  if hne : docs = [] ∨ chunkSize = 0 then []
  else
    processChunk (docs.take chunkSize) (outcomes idx) ++
      orderChunksLoop chunkSize outcomes (idx + 1) (docs.drop chunkSize)
termination_by docs.length
decreasing_by
  simp only [not_or] at hne
  have h1 : docs.length ≠ 0 := fun h0 => hne.1 (List.eq_nil_of_length_eq_zero h0)
  have h2 : chunkSize ≠ 0 := hne.2
  simp only [List.length_drop]
  omega

lemma orderChunksLoop_nil (chunkSize : Nat) (outcomes : Nat → ChunkOutcome) (idx : Nat)
    (docs : List PaidDoc) (h : docs = [] ∨ chunkSize = 0) :
    orderChunksLoop chunkSize outcomes idx docs = [] := by
  unfold orderChunksLoop
  rw [dif_pos h]

lemma mapPendingTo_of_init (st : DocumentProcessingStatusEnum) (chunk : List PaidDoc) :
    mapPendingTo st (chunk.map (fun d => (d.original_title,
        if d.checkboxOk then DocumentProcessingStatusEnum.IDENTIFIED_FOR_PROCESSING
        else DocumentProcessingStatusEnum.ORDERING_FAILED))) =
      chunk.map (fun d => (d.original_title,
        if d.checkboxOk then st else DocumentProcessingStatusEnum.ORDERING_FAILED)) := by
  induction chunk with
  | nil => rfl
  | cons d rest ih =>
    simp only [mapPendingTo, List.map_cons] at ih ⊢
    rw [ih]
    cases hcb : d.checkboxOk <;> simp [hcb]

lemma mapPendingTo_no_pending (st : DocumentProcessingStatusEnum)
    (l : List (String × DocumentProcessingStatusEnum))
    (h : ∀ e ∈ l, e.2 ≠ DocumentProcessingStatusEnum.IDENTIFIED_FOR_PROCESSING) :
    mapPendingTo st l = l := by
  induction l with
  | nil => rfl
  | cons e rest ih =>
    simp only [mapPendingTo, List.map_cons]
    rw [if_neg (h e (List.mem_cons_self e rest))]
    have := ih (fun x hx => h x (List.mem_cons_of_mem e hx))
    simp only [mapPendingTo] at this
    rw [this]

lemma orderChunksLoop_step (chunkSize : Nat) (outcomes : Nat → ChunkOutcome) (idx : Nat)
    (docs : List PaidDoc) (hd : docs ≠ []) (hs : chunkSize ≠ 0) :
    orderChunksLoop chunkSize outcomes idx docs =
      processChunk (docs.take chunkSize) (outcomes idx) ++
        orderChunksLoop chunkSize outcomes (idx + 1) (docs.drop chunkSize) := by
  conv_lhs => unfold orderChunksLoop
  rw [dif_neg]
  intro hcon
  rcases hcon with hcon | hcon
  · exact hd hcon
  · exact hs hcon

lemma processChunk_length (chunk : List PaidDoc) (oc : ChunkOutcome) :
    (processChunk chunk oc).length = chunk.length := by
  unfold processChunk mapPendingTo
  split_ifs <;> simp

lemma processChunk_of_failure (chunk : List PaidDoc) (oc : ChunkOutcome)
    (hfail : oc.buttonAvailable = false ∨ oc.indicatorsAppeared = false ∨
      oc.indicatorsDisappeared = false) :
    processChunk chunk oc =
      chunk.map (fun d => (d.original_title,
        DocumentProcessingStatusEnum.ORDERING_FAILED)) := by
  rcases oc with ⟨ba, ia, idis⟩
  simp only at hfail
  have hnp : ∀ st : DocumentProcessingStatusEnum,
      mapPendingTo st (chunk.map (fun d => (d.original_title,
        DocumentProcessingStatusEnum.ORDERING_FAILED))) =
      chunk.map (fun d => (d.original_title,
        DocumentProcessingStatusEnum.ORDERING_FAILED)) := by
    intro st
    apply mapPendingTo_no_pending
    intro e he
    obtain ⟨d, _, rfl⟩ := List.mem_map.mp he
    simp
  cases ba with
  | false => simp [processChunk]
  | true =>
    cases ia with
    | false =>
      cases idis with
      | false =>
        have hred : processChunk chunk ⟨true, false, false⟩ =
            mapPendingTo DocumentProcessingStatusEnum.ORDERING_FAILED
              (mapPendingTo DocumentProcessingStatusEnum.ORDERING_FAILED
                (chunk.map (fun d => (d.original_title,
                  if d.checkboxOk then
                    DocumentProcessingStatusEnum.IDENTIFIED_FOR_PROCESSING
                  else DocumentProcessingStatusEnum.ORDERING_FAILED)))) := rfl
        rw [hred, mapPendingTo_of_init]
        simp only [ite_self]
        exact hnp _
      | true =>
        have hred : processChunk chunk ⟨true, false, true⟩ =
            mapPendingTo DocumentProcessingStatusEnum.ORDERING_COMPLETED
              (mapPendingTo DocumentProcessingStatusEnum.ORDERING_FAILED
                (chunk.map (fun d => (d.original_title,
                  if d.checkboxOk then
                    DocumentProcessingStatusEnum.IDENTIFIED_FOR_PROCESSING
                  else DocumentProcessingStatusEnum.ORDERING_FAILED)))) := rfl
        rw [hred, mapPendingTo_of_init]
        simp only [ite_self]
        exact hnp _
    | true =>
      cases idis with
      | false =>
        have hred : processChunk chunk ⟨true, true, false⟩ =
            mapPendingTo DocumentProcessingStatusEnum.ORDERING_FAILED
              (chunk.map (fun d => (d.original_title,
                if d.checkboxOk then
                  DocumentProcessingStatusEnum.IDENTIFIED_FOR_PROCESSING
                else DocumentProcessingStatusEnum.ORDERING_FAILED))) := rfl
        rw [hred, mapPendingTo_of_init]
        simp only [ite_self]
      | true =>
        rcases hfail with hf | hf | hf <;> simp at hf

lemma orderChunksLoop_take_agree (chunkSize : Nat) (o o' : Nat → ChunkOutcome) :
    ∀ (k idx : Nat) (docs : List PaidDoc),
      (∀ i < k, o (idx + i) = o' (idx + i)) →
      (orderChunksLoop chunkSize o idx docs).take (k * chunkSize) =
        (orderChunksLoop chunkSize o' idx docs).take (k * chunkSize) := by
  intro k
  induction k with
  | zero => intro idx docs _; simp
  | succ k ih =>
    intro idx docs h
    by_cases hd : docs = []
    · rw [orderChunksLoop_nil chunkSize o idx docs (Or.inl hd),
        orderChunksLoop_nil chunkSize o' idx docs (Or.inl hd)]
    · by_cases hs : chunkSize = 0
      · rw [orderChunksLoop_nil chunkSize o idx docs (Or.inr hs),
          orderChunksLoop_nil chunkSize o' idx docs (Or.inr hs)]
      · rw [orderChunksLoop_step chunkSize o idx docs hd hs,
          orderChunksLoop_step chunkSize o' idx docs hd hs]
        have h0 : o idx = o' idx := by
          have := h 0 (Nat.succ_pos k)
          simpa using this
        rw [h0, List.take_append_eq_append_take, List.take_append_eq_append_take]
        congr 1
        by_cases hlen : chunkSize ≤ docs.length
        · have hplen : (processChunk (docs.take chunkSize) (o' idx)).length = chunkSize := by
            rw [processChunk_length]
            simp [List.length_take, Nat.min_eq_left hlen]
          rw [hplen]
          have harith : (k + 1) * chunkSize - chunkSize = k * chunkSize := by
            have hexp : (k + 1) * chunkSize = k * chunkSize + chunkSize := by ring
            omega
          rw [harith]
          apply ih (idx + 1) (docs.drop chunkSize)
          intro i hi
          have hstep := h (i + 1) (Nat.succ_lt_succ hi)
          have heq : idx + (i + 1) = idx + 1 + i := by omega
          rw [heq] at hstep
          exact hstep
        · have hdrop : docs.drop chunkSize = [] :=
            List.drop_eq_nil_iff.mpr (Nat.le_of_lt (Nat.lt_of_not_le hlen))
          rw [hdrop, orderChunksLoop_nil chunkSize o (idx + 1) [] (Or.inl rfl),
            orderChunksLoop_nil chunkSize o' (idx + 1) [] (Or.inl rfl)]

/-- C8: ordering of free paid-section documents proceeds in consecutive
chunks of the configured size with only the final chunk smaller — 23
documents with chunk size 10 produce exactly the three chunks of sizes
10, 10 and 3 — the statuses recorded for the documents of the first k
chunks depend only on the outcomes of those k ordering attempts (so a
failure in a later chunk cannot change them), and a chunk-level ordering
failure (order button unavailable, or the loading indicators failing to
appear or to disappear) leaves every document of that chunk
Ordering_Failed: the still-pending ones are marked so, and the ones already
failed at checkbox selection keep that status. -/
theorem c8_chunked_ordering (chunkSize k : Nat) (docs docs23 : List PaidDoc)
    (o o' : Nat → ChunkOutcome) (h23 : docs23.length = 23)
    (hagree : ∀ i < k, o i = o' i) :
    (orderChunksLoop 10 o 0 docs23 =
      processChunk (docs23.take 10) (o 0) ++
        (processChunk ((docs23.drop 10).take 10) (o 1) ++
          processChunk (docs23.drop 20) (o 2)) ∧
      (docs23.take 10).length = 10 ∧ ((docs23.drop 10).take 10).length = 10 ∧
      (docs23.drop 20).length = 3) ∧
    (orderChunksLoop chunkSize o 0 docs).take (k * chunkSize) =
      (orderChunksLoop chunkSize o' 0 docs).take (k * chunkSize) ∧
    (∀ (chunk : List PaidDoc) (oc : ChunkOutcome),
      (oc.buttonAvailable = false ∨ oc.indicatorsAppeared = false ∨
        oc.indicatorsDisappeared = false) →
      processChunk chunk oc =
        chunk.map (fun d => (d.original_title,
          DocumentProcessingStatusEnum.ORDERING_FAILED))) := by
  refine ⟨⟨?_, ?_, ?_, ?_⟩, ?_, processChunk_of_failure⟩
  · have h1 : docs23 ≠ [] := by
      intro hnil
      rw [hnil] at h23
      exact absurd h23 (by decide)
    have l2 : (docs23.drop 10).length = 13 := by simp [h23]
    have h2 : docs23.drop 10 ≠ [] := by
      intro hnil
      rw [hnil] at l2
      exact absurd l2 (by decide)
    have l3 : (docs23.drop 20).length = 3 := by simp [h23]
    have h3 : docs23.drop 20 ≠ [] := by
      intro hnil
      rw [hnil] at l3
      exact absurd l3 (by decide)
    rw [orderChunksLoop_step 10 o 0 docs23 h1 (by decide),
      orderChunksLoop_step 10 o 1 (docs23.drop 10) h2 (by decide)]
    have hdd : (docs23.drop 10).drop 10 = docs23.drop 20 := by
      rw [List.drop_drop]
    rw [hdd, orderChunksLoop_step 10 o 2 (docs23.drop 20) h3 (by decide)]
    have htk : (docs23.drop 20).take 10 = docs23.drop 20 :=
      List.take_of_length_le (by rw [l3]; decide)
    have hd3 : (docs23.drop 20).drop 10 = [] :=
      List.drop_eq_nil_iff.mpr (by rw [l3]; decide)
    rw [htk, hd3, orderChunksLoop_nil 10 o 3 [] (Or.inl rfl)]
    simp
  · simp [List.length_take, h23]
  · simp [List.length_take, h23]
  · simp [h23]
  · exact orderChunksLoop_take_agree chunkSize o o' k 0 docs
      (fun i hi => by simpa using hagree i hi)

/-- Twenty-three identical free orderable documents. -/
def c8Docs : List PaidDoc := List.replicate 23 ⟨"FINAL JUDGMENT COPY", true⟩

/-- Outcomes where every ordering attempt succeeds. -/
def c8Good : Nat → ChunkOutcome := fun _ => ⟨true, true, true⟩

/-- Outcomes where chunk 1 succeeds but every later chunk fails. -/
def c8FailLater : Nat → ChunkOutcome :=
  fun i => if i = 0 then ⟨true, true, true⟩ else ⟨false, true, true⟩

/-- Witness for C8 at 23 concrete documents with chunk size 10: a failure
in chunk 2 leaves the recorded outcomes of chunk 1's ten documents exactly
as in the all-success run. -/
theorem c8_chunked_ordering_witness :
    (orderChunksLoop 10 c8Good 0 c8Docs).take (1 * 10) =
      (orderChunksLoop 10 c8FailLater 0 c8Docs).take (1 * 10) :=
  (c8_chunked_ordering 10 1 c8Docs c8Docs c8Good c8FailLater (by decide)
    (by decide)).2.1

/-- Python's `str.strip()`: remove leading and trailing whitespace
(`case_detail.case_number_for_db_id.strip()`,
`app/api/routers/cases.py` line 94). -/
def pyStrip (s : String) : String :=
  ⟨((s.data.dropWhile Char.isWhitespace).reverse.dropWhile Char.isWhitespace).reverse⟩

/-- One row of the `cases` table, restricted to the fields the submission
endpoint touches (`app/db/models.py`, `app/db/crud.py` lines 17-27). -/
structure CaseRec where
  rid : Nat
  case_number : String
  status : CaseStatusEnum
  processed_documents_summary : List SummaryItem
deriving DecidableEq, Repr

/-- The shared state read and written by the submission endpoint
(`app/api/routers/cases.py`): the processing queue holding
(case id, case number) entries, the actively-processing set, the cases
table, the set of case keys with an existing temp-artifact directory, and
the next autoincrement id. -/
structure SubmitState where
  queue : List (Nat × String)
  active : List String
  db : List CaseRec
  tempDirs : List String
  nextId : Nat
deriving DecidableEq, Repr

/-- The three outcome counters reported by the submission endpoint
(`app/api/routers/cases.py` lines 83-85 and 137-142). -/
structure SubmitCounts where
  newly_submitted : Nat
  deleted_and_resubmitted : Nat
  skipped_active : Nat
deriving DecidableEq, Repr

/-- The loop-carried data of `submit_cases_for_processing`: the local queue
snapshot `current_queue_case_numbers` (updated on line 135), the
`submitted_in_this_call` set, the shared state, and the counters. -/
structure SubmitAcc where
  qNums : List String
  seen : List String
  st : SubmitState
  counts : SubmitCounts
deriving DecidableEq, Repr

/-- One iteration of the submission loop of `submit_cases_for_processing`
(`app/api/routers/cases.py` lines 93-135): skip empty keys and batch
duplicates; skip (and count) keys already queued or active; otherwise
delete any prior record and temp directory (lines 110-126), then create a
fresh Queued record (`crud.create_case`) and enqueue it (lines 128-135). -/
def submitOneCase (activeSnapshot : List String) (acc : SubmitAcc) (raw : String) :
    SubmitAcc :=
  let k := (pyStrip raw)
  if k = "" then acc
  else if acc.seen.contains k then acc
  else
    let seen1 := acc.seen ++ [k]
    if acc.qNums.contains k || activeSnapshot.contains k then
      ⟨acc.qNums, seen1, acc.st,
        { acc.counts with skipped_active := acc.counts.skipped_active + 1 }⟩
    else
      let found := acc.st.db.find? (fun c => c.case_number == k)
      let st1 :=
        match found with
        | some existing =>
          { acc.st with
            tempDirs := acc.st.tempDirs.filter (fun t => !(t == k)),
            db := acc.st.db.filter (fun c => !(c.rid == existing.rid)) }
        | none => acc.st
      let counts1 :=
        match found with
        | some _ =>
          { acc.counts with
            deleted_and_resubmitted := acc.counts.deleted_and_resubmitted + 1 }
        | none => acc.counts
      let newRec : CaseRec := ⟨st1.nextId, k, CaseStatusEnum.QUEUED, []⟩
      let st2 :=
        { st1 with
          db := st1.db ++ [newRec],
          queue := st1.queue ++ [(st1.nextId, k)],
          nextId := st1.nextId + 1 }
      ⟨acc.qNums ++ [k], seen1, st2,
        { counts1 with newly_submitted := counts1.newly_submitted + 1 }⟩

/-- The whole `submit_cases_for_processing` endpoint
(`app/api/routers/cases.py` lines 70-143): snapshot the queue keys and the
active set, then fold the loop body over the payload. -/
def submitBatch (st : SubmitState) (payload : List String) :
    SubmitState × SubmitCounts :=
  let r := payload.foldl (submitOneCase st.active)
    ⟨st.queue.map (fun e => e.2), [], st, ⟨0, 0, 0⟩⟩
  (r.st, r.counts)

lemma submitOneCase_of_empty (a : List String) (acc : SubmitAcc) (raw : String)
    (h : (pyStrip raw) = "") : submitOneCase a acc raw = acc := by
  unfold submitOneCase
  rw [if_pos h]

lemma submitOneCase_of_seen (a : List String) (acc : SubmitAcc) (raw : String)
    (h : (pyStrip raw) ≠ "") (h2 : acc.seen.contains (pyStrip raw) = true) :
    submitOneCase a acc raw = acc := by
  unfold submitOneCase
  rw [if_neg h, if_pos h2]

lemma submitOneCase_of_skip (a : List String) (acc : SubmitAcc) (raw : String)
    (h : (pyStrip raw) ≠ "") (h2 : acc.seen.contains (pyStrip raw) = false)
    (h3 : (acc.qNums.contains (pyStrip raw) || a.contains (pyStrip raw)) = true) :
    submitOneCase a acc raw =
      ⟨acc.qNums, acc.seen ++ [(pyStrip raw)], acc.st,
        { acc.counts with skipped_active := acc.counts.skipped_active + 1 }⟩ := by
  unfold submitOneCase
  rw [if_neg h, if_neg (by rw [h2]; exact Bool.false_ne_true), if_pos h3]

lemma submitOneCase_of_go (a : List String) (acc : SubmitAcc) (raw : String)
    (h : (pyStrip raw) ≠ "") (h2 : acc.seen.contains (pyStrip raw) = false)
    (h3 : (acc.qNums.contains (pyStrip raw) || a.contains (pyStrip raw)) = false) :
    submitOneCase a acc raw =
      ⟨acc.qNums ++ [(pyStrip raw)], acc.seen ++ [(pyStrip raw)],
        { queue := acc.st.queue ++ [(acc.st.nextId, (pyStrip raw))],
          active := acc.st.active,
          db := (match acc.st.db.find? (fun c => c.case_number == (pyStrip raw)) with
                 | some existing => acc.st.db.filter (fun c => !(c.rid == existing.rid))
                 | none => acc.st.db) ++
            [⟨acc.st.nextId, (pyStrip raw), CaseStatusEnum.QUEUED, []⟩],
          tempDirs :=
            match acc.st.db.find? (fun c => c.case_number == (pyStrip raw)) with
            | some _ => acc.st.tempDirs.filter (fun t => !(t == (pyStrip raw)))
            | none => acc.st.tempDirs,
          nextId := acc.st.nextId + 1 },
        { newly_submitted := acc.counts.newly_submitted + 1,
          deleted_and_resubmitted :=
            match acc.st.db.find? (fun c => c.case_number == (pyStrip raw)) with
            | some _ => acc.counts.deleted_and_resubmitted + 1
            | none => acc.counts.deleted_and_resubmitted,
          skipped_active := acc.counts.skipped_active }⟩ := by
  unfold submitOneCase
  rw [if_neg h, if_neg (by rw [h2]; exact Bool.false_ne_true),
    if_neg (by rw [h3]; exact Bool.false_ne_true)]
  cases hf : acc.st.db.find? (fun c => c.case_number == (pyStrip raw)) <;> rfl

lemma submitOneCase_count (a : List String) (acc : SubmitAcc) (raw : String)
    (k : String) (hk : k ∈ acc.qNums ∨ k ∈ a) :
    ((submitOneCase a acc raw).st.queue.countP (fun e => e.2 == k) =
      acc.st.queue.countP (fun e => e.2 == k)) ∧
    (k ∈ (submitOneCase a acc raw).qNums ∨ k ∈ a) := by
  by_cases h1 : (pyStrip raw) = ""
  · rw [submitOneCase_of_empty a acc raw h1]
    exact ⟨rfl, hk⟩
  · by_cases h2 : acc.seen.contains (pyStrip raw) = true
    · rw [submitOneCase_of_seen a acc raw h1 h2]
      exact ⟨rfl, hk⟩
    · have h2f : acc.seen.contains (pyStrip raw) = false := Bool.eq_false_iff.mpr h2
      by_cases h3 : (acc.qNums.contains (pyStrip raw) || a.contains (pyStrip raw)) = true
      · rw [submitOneCase_of_skip a acc raw h1 h2f h3]
        exact ⟨rfl, hk⟩
      · have h3f : (acc.qNums.contains (pyStrip raw) || a.contains (pyStrip raw)) = false :=
          Bool.eq_false_iff.mpr h3
        have hne2 : (pyStrip raw) ≠ k := by
          intro heq
          rw [Bool.or_eq_false_iff] at h3f
          rcases hk with hq | ha2
          · have hc : acc.qNums.contains (pyStrip raw) = true := by
              rw [heq]
              exact List.elem_iff.mpr hq
            rw [h3f.1] at hc
            exact Bool.false_ne_true hc
          · have hc : a.contains (pyStrip raw) = true := by
              rw [heq]
              exact List.elem_iff.mpr ha2
            rw [h3f.2] at hc
            exact Bool.false_ne_true hc
        have hbeq : ((pyStrip raw) == k) = false := beq_eq_false_iff_ne.mpr hne2
        rw [submitOneCase_of_go a acc raw h1 h2f h3f]
        refine ⟨?_, ?_⟩
        · simp [List.countP_append, List.countP_cons, hbeq]
        · rcases hk with hq | ha2
          · exact Or.inl (by simp [hq])
          · exact Or.inr ha2

lemma submitLoop_count (a : List String) (k : String) (payload : List String) :
    ∀ acc : SubmitAcc, (k ∈ acc.qNums ∨ k ∈ a) →
      ((payload.foldl (submitOneCase a) acc).st.queue.countP (fun e => e.2 == k) =
        acc.st.queue.countP (fun e => e.2 == k)) := by
  induction payload with
  | nil => intro acc _; rfl
  | cons raw rest ih =>
    intro acc hk
    rw [List.foldl_cons]
    obtain ⟨hcount, hk2⟩ := submitOneCase_count a acc raw k hk
    rw [ih (submitOneCase a acc raw) hk2, hcount]

/-- A state in which CASE-1 is actively processing but no longer queued. -/
def c5State : SubmitState := ⟨[], [("CASE-1")], [], [], 1⟩

/-- C5 counterexample: the claim says that after skipping a key that is
queued OR active, exactly one queue entry for that key exists.  When the
key is only in the active set (its queue entry was already popped by the
worker), the submission is skipped and counted, but afterwards there are
zero queue entries for the key, not one. -/
theorem c5_counterexample :
    (submitBatch c5State [("CASE-1")]).2.skipped_active = 1 ∧
    (submitBatch c5State [("CASE-1")]).1.queue.countP (fun e => e.2 == ("CASE-1")) = 0 := by
  constructor
  · rfl
  · rfl

/-- C5 (amended): a case key that is already queued or active at submission
time is never enqueued again by any batch — the number of its queue entries
is unchanged (so exactly one when it was queued once, zero when it was only
active) — and submitting exactly that key is a complete no-op on the shared
state, reported as one skipped (already queued/processing) outcome. -/
theorem c5_dedup (st : SubmitState) (payload : List String) (k : String)
    (hk : k ∈ st.queue.map (fun e => e.2) ∨ k ∈ st.active) :
    ((submitBatch st payload).1.queue.countP (fun e => e.2 == k) =
      st.queue.countP (fun e => e.2 == k)) ∧
    ((pyStrip k) = k → k ≠ "" → submitBatch st [k] = (st, ⟨0, 0, 1⟩)) := by
  constructor
  · exact submitLoop_count st.active k payload
      ⟨st.queue.map (fun e => e.2), [], st, ⟨0, 0, 0⟩⟩ hk
  · intro htrim hne0
    unfold submitBatch
    rw [List.foldl_cons, List.foldl_nil]
    have h3 : ((st.queue.map (fun e => e.2)).contains (pyStrip k) ||
        st.active.contains (pyStrip k)) = true := by
      rw [htrim]
      rcases hk with hq | ha2
      · have hc : (st.queue.map (fun e => e.2)).contains k = true :=
          List.elem_iff.mpr hq
        rw [hc]
        rfl
      · have hc : st.active.contains k = true := List.elem_iff.mpr ha2
        rw [hc]
        simp
    rw [submitOneCase_of_skip st.active
      ⟨st.queue.map (fun e => e.2), [], st, ⟨0, 0, 0⟩⟩ k
      (by rw [htrim]; exact hne0) rfl h3]

/-- A state whose queue already holds CASE-2. -/
def c5QState : SubmitState := ⟨[(0, ("CASE-2"))], [], [], [], 1⟩

/-- Witness for C5's amended theorem: resubmitting the queued key CASE-2 is
a no-op reported as one skipped outcome. -/
theorem c5_dedup_witness :
    submitBatch c5QState [("CASE-2")] = (c5QState, ⟨0, 0, 1⟩) :=
  (c5_dedup c5QState [("CASE-2")] ("CASE-2") (by decide)).2 (by decide) (by decide)

/-- C6: submitting a case key that exists in the durable store while being
neither queued nor active deletes the prior record (by its id) and the
key's temp-artifact directory, creates exactly one fresh record with status
Queued and an empty document summary under a fresh id, enqueues exactly
that record, and reports one newly-submitted and one deleted-and-resubmitted
outcome and no skip. -/
theorem c6_resubmission (st : SubmitState) (k : String) (rec : CaseRec)
    (htrim : pyStrip k = k) (hne0 : k ≠ "")
    (hq : ¬ k ∈ st.queue.map (fun e => e.2)) (ha : ¬ k ∈ st.active)
    (hfind : st.db.find? (fun c => c.case_number == k) = some rec)
    (huniq : st.db.filter (fun c => c.case_number == k) = [rec]) :
    (submitBatch st [k]).1.db =
      st.db.filter (fun c => !(c.rid == rec.rid)) ++
        [⟨st.nextId, k, CaseStatusEnum.QUEUED, []⟩] ∧
    (submitBatch st [k]).1.db.filter (fun c => c.case_number == k) =
      [⟨st.nextId, k, CaseStatusEnum.QUEUED, []⟩] ∧
    (submitBatch st [k]).1.tempDirs = st.tempDirs.filter (fun t => !(t == k)) ∧
    (submitBatch st [k]).1.queue = st.queue ++ [(st.nextId, k)] ∧
    (submitBatch st [k]).2 = ⟨1, 1, 0⟩ := by
  have h3f : ((st.queue.map (fun e => e.2)).contains (pyStrip k) ||
      st.active.contains (pyStrip k)) = false := by
    rw [htrim, Bool.or_eq_false_iff]
    constructor
    · cases hc : (st.queue.map (fun e => e.2)).contains k with
      | false => rfl
      | true => exact absurd (List.elem_iff.mp hc) hq
    · cases hc : st.active.contains k with
      | false => rfl
      | true => exact absurd (List.elem_iff.mp hc) ha
  have hgo := submitOneCase_of_go st.active
    ⟨st.queue.map (fun e => e.2), [], st, ⟨0, 0, 0⟩⟩ k
    (by rw [htrim]; exact hne0) rfl h3f
  have hsb : submitBatch st [k] =
      ((submitOneCase st.active
          ⟨st.queue.map (fun e => e.2), [], st, ⟨0, 0, 0⟩⟩ k).st,
        (submitOneCase st.active
          ⟨st.queue.map (fun e => e.2), [], st, ⟨0, 0, 0⟩⟩ k).counts) := rfl
  rw [hsb, hgo, htrim]
  simp only [hfind]
  refine ⟨?_, ?_, ?_, ?_, ?_⟩
  all_goals try trivial
  rw [List.filter_append]
  have h1 : (st.db.filter (fun c => !(c.rid == rec.rid))).filter
      (fun c => c.case_number == k) = [] := by
    rw [List.filter_filter]
    calc st.db.filter (fun a => (a.case_number == k) && !(a.rid == rec.rid))
        = st.db.filter (fun a => !(a.rid == rec.rid) && (a.case_number == k)) := by
          apply List.filter_congr
          intro a _
          exact Bool.and_comm _ _
      _ = (st.db.filter (fun a => a.case_number == k)).filter
            (fun a => !(a.rid == rec.rid)) := (List.filter_filter _ _).symm
      _ = [rec].filter (fun a => !(a.rid == rec.rid)) := by rw [huniq]
      _ = [] := by simp
  rw [h1]
  simp

/-- A completed prior record for CASE-9. -/
def c6Rec : CaseRec := ⟨0, ("CASE-9"), CaseStatusEnum.COMPLETED_MISSING_DATA, []⟩

/-- A state holding CASE-9 in the store with leftover temp artifacts and an
idle queue. -/
def c6State : SubmitState := ⟨[], [], [c6Rec], [("CASE-9")], 1⟩

/-- Witness for C6 at a concrete resubmission of CASE-9: the store ends
with exactly one fresh Queued record for the key and the counters report
one replacement. -/
theorem c6_resubmission_witness :
    (submitBatch c6State [("CASE-9")]).1.db.filter
      (fun c => c.case_number == ("CASE-9")) =
      [⟨1, ("CASE-9"), CaseStatusEnum.QUEUED, []⟩] ∧
    (submitBatch c6State [("CASE-9")]).2 = ⟨1, 1, 0⟩ :=
  have h := c6_resubmission c6State ("CASE-9") c6Rec (by decide) (by decide)
    (by decide) (by decide) (by decide) (by decide)
  ⟨h.2.1, h.2.2.2.2⟩

/-- How one invocation of `process_single_case` ends, as classified by the
worker's handler (`app/workers/case_worker.py` lines 112-132): normal
return; an exception whose text matches the session-error patterns
(Connection closed / Failed to ensure Unicourt session); or any other
exception. -/
inductive AttemptResult
  | success
  | sessionErr
  | otherErr
deriving DecidableEq, Repr

/-- Constant `max_retries` of `app/workers/case_worker.py` line 103. -/
def workerMaxRetries : Nat := 2

/-- What the retry loop of `app/workers/case_worker.py` lines 102-132 did:
how many times `process_single_case` ran, how many session rebuilds were
attempted (`retry_count` at exit), and the status written by the worker's
own error handler (line 131) — `none` when the loop ended by a successful
attempt.  Returning a value at all models the worker proceeding to its next
queue entry instead of crashing. -/
structure RetryOutcome where
  attemptsMade : Nat
  rebuildsAttempted : Nat
  recorded : Option CaseStatusEnum
deriving DecidableEq, Repr

/-- The retry loop `while retry_count <= max_retries` of
`app/workers/case_worker.py` lines 102-132: `attempts i` is how the
(i+1)-th invocation of `process_single_case` for this case ends.  A
successful attempt breaks out (line 113); a session-level error with
retries left rebuilds the session and retries the same case (lines
116-126; a failed rebuild `continue`s into the retry all the same); any
other error, or a session error with retries exhausted, records
Generic_Case_Error and breaks (lines 128-132). -/
def caseRetryLoop (attempts : Nat → AttemptResult) (attemptIdx retryCount : Nat) :
    RetryOutcome :=
  match attempts attemptIdx with
  | AttemptResult.success => ⟨attemptIdx + 1, retryCount, none⟩
  | AttemptResult.sessionErr =>
    if retryCount < workerMaxRetries then
      caseRetryLoop attempts (attemptIdx + 1) (retryCount + 1)
    else ⟨attemptIdx + 1, retryCount, some CaseStatusEnum.WORKER_ERROR⟩
  | AttemptResult.otherErr =>
    ⟨attemptIdx + 1, retryCount, some CaseStatusEnum.WORKER_ERROR⟩
termination_by workerMaxRetries + 1 - retryCount
decreasing_by omega

lemma caseRetryLoop_unfold (attempts : Nat → AttemptResult) (attemptIdx retryCount : Nat) :
    caseRetryLoop attempts attemptIdx retryCount =
      match attempts attemptIdx with
      | AttemptResult.success => ⟨attemptIdx + 1, retryCount, none⟩
      | AttemptResult.sessionErr =>
        if retryCount < workerMaxRetries then
          caseRetryLoop attempts (attemptIdx + 1) (retryCount + 1)
        else ⟨attemptIdx + 1, retryCount, some CaseStatusEnum.WORKER_ERROR⟩
      | AttemptResult.otherErr =>
        ⟨attemptIdx + 1, retryCount, some CaseStatusEnum.WORKER_ERROR⟩ := by
  conv_lhs => unfold caseRetryLoop

/-- C7: for every way the attempts can end, the worker's retry loop makes
at most three attempts (the initial one plus the two bounded session
rebuilds), attempts at most two rebuilds, ends with no worker-written
status exactly when some attempt succeeds after only session-level
failures, and records the worker-error terminal status (Generic_Case_Error)
exactly when a non-session failure occurs after only session-level
failures or when all three attempts fail at session level; in every case
the loop returns, so the worker proceeds to its next queue entry. -/
theorem c7_session_retry (attempts : Nat → AttemptResult) :
    (caseRetryLoop attempts 0 0).attemptsMade ≤ 3 ∧
    (caseRetryLoop attempts 0 0).rebuildsAttempted ≤ workerMaxRetries ∧
    ((caseRetryLoop attempts 0 0).recorded = none ↔
      (∃ j, j ≤ 2 ∧ attempts j = AttemptResult.success ∧
        ∀ i < j, attempts i = AttemptResult.sessionErr)) ∧
    ((caseRetryLoop attempts 0 0).recorded = some CaseStatusEnum.WORKER_ERROR ↔
      ((∃ j, j ≤ 2 ∧ attempts j = AttemptResult.otherErr ∧
          ∀ i < j, attempts i = AttemptResult.sessionErr) ∨
        (∀ i, i ≤ 2 → attempts i = AttemptResult.sessionErr))) := by
  cases h0 : attempts 0 with
  | success =>
    have hr : caseRetryLoop attempts 0 0 = ⟨1, 0, none⟩ := by
      rw [caseRetryLoop_unfold, h0]
    rw [hr]
    refine ⟨by decide, by decide, ?_, ?_⟩
    · constructor
      · intro _
        exact ⟨0, by omega, h0, fun i hi => absurd hi (by omega)⟩
      · intro _
        rfl
    · constructor
      · intro hcon
        simp at hcon
      · rintro (⟨j, hj, hx, hprev⟩ | hall)
        · interval_cases j
          · rw [h0] at hx
            cases hx
          · have := hprev 0 (by omega)
            rw [h0] at this
            cases this
          · have := hprev 0 (by omega)
            rw [h0] at this
            cases this
        · have := hall 0 (by omega)
          rw [h0] at this
          cases this
  | otherErr =>
    have hr : caseRetryLoop attempts 0 0 = ⟨1, 0, some CaseStatusEnum.WORKER_ERROR⟩ := by
      rw [caseRetryLoop_unfold, h0]
    rw [hr]
    refine ⟨by decide, by decide, ?_, ?_⟩
    · constructor
      · intro hcon
        simp at hcon
      · rintro ⟨j, hj, hx, hprev⟩
        interval_cases j
        · rw [h0] at hx
          cases hx
        · have := hprev 0 (by omega)
          rw [h0] at this
          cases this
        · have := hprev 0 (by omega)
          rw [h0] at this
          cases this
    · constructor
      · intro _
        exact Or.inl ⟨0, by omega, h0, fun i hi => absurd hi (by omega)⟩
      · intro _
        rfl
  | sessionErr =>
    cases h1 : attempts 1 with
    | success =>
      have hr : caseRetryLoop attempts 0 0 = ⟨2, 1, none⟩ := by
        rw [caseRetryLoop_unfold, h0, if_pos (show 0 < workerMaxRetries by decide),
          caseRetryLoop_unfold, h1]
      rw [hr]
      refine ⟨by decide, by decide, ?_, ?_⟩
      · constructor
        · intro _
          refine ⟨1, by omega, h1, fun i hi => ?_⟩
          have hi0 : i = 0 := by omega
          rw [hi0, h0]
        · intro _
          rfl
      · constructor
        · intro hcon
          simp at hcon
        · rintro (⟨j, hj, hx, hprev⟩ | hall)
          · interval_cases j
            · rw [h0] at hx
              cases hx
            · rw [h1] at hx
              cases hx
            · have := hprev 1 (by omega)
              rw [h1] at this
              cases this
          · have := hall 1 (by omega)
            rw [h1] at this
            cases this
    | otherErr =>
      have hr : caseRetryLoop attempts 0 0 = ⟨2, 1, some CaseStatusEnum.WORKER_ERROR⟩ := by
        rw [caseRetryLoop_unfold, h0, if_pos (show 0 < workerMaxRetries by decide),
          caseRetryLoop_unfold, h1]
      rw [hr]
      refine ⟨by decide, by decide, ?_, ?_⟩
      · constructor
        · intro hcon
          simp at hcon
        · rintro ⟨j, hj, hx, hprev⟩
          interval_cases j
          · rw [h0] at hx
            cases hx
          · rw [h1] at hx
            cases hx
          · have := hprev 1 (by omega)
            rw [h1] at this
            cases this
      · constructor
        · intro _
          refine Or.inl ⟨1, by omega, h1, fun i hi => ?_⟩
          have hi0 : i = 0 := by omega
          rw [hi0, h0]
        · intro _
          rfl
    | sessionErr =>
      cases h2 : attempts 2 with
      | success =>
        have hr : caseRetryLoop attempts 0 0 = ⟨3, 2, none⟩ := by
          rw [caseRetryLoop_unfold, h0, if_pos (show 0 < workerMaxRetries by decide),
            caseRetryLoop_unfold, h1, if_pos (show 1 < workerMaxRetries by decide),
            caseRetryLoop_unfold, h2]
        rw [hr]
        refine ⟨by decide, by decide, ?_, ?_⟩
        · constructor
          · intro _
            refine ⟨2, by omega, h2, fun i hi => ?_⟩
            interval_cases i
            · exact h0
            · exact h1
          · intro _
            rfl
        · constructor
          · intro hcon
            simp at hcon
          · rintro (⟨j, hj, hx, hprev⟩ | hall)
            · interval_cases j
              · rw [h0] at hx
                cases hx
              · rw [h1] at hx
                cases hx
              · rw [h2] at hx
                cases hx
            · have := hall 2 (by omega)
              rw [h2] at this
              cases this
      | otherErr =>
        have hr : caseRetryLoop attempts 0 0 = ⟨3, 2, some CaseStatusEnum.WORKER_ERROR⟩ := by
          rw [caseRetryLoop_unfold, h0, if_pos (show 0 < workerMaxRetries by decide),
            caseRetryLoop_unfold, h1, if_pos (show 1 < workerMaxRetries by decide),
            caseRetryLoop_unfold, h2]
        rw [hr]
        refine ⟨by decide, by decide, ?_, ?_⟩
        · constructor
          · intro hcon
            simp at hcon
          · rintro ⟨j, hj, hx, hprev⟩
            interval_cases j
            · rw [h0] at hx
              cases hx
            · rw [h1] at hx
              cases hx
            · rw [h2] at hx
              cases hx
        · constructor
          · intro _
            refine Or.inl ⟨2, by omega, h2, fun i hi => ?_⟩
            interval_cases i
            · exact h0
            · exact h1
          · intro _
            rfl
      | sessionErr =>
        have hr : caseRetryLoop attempts 0 0 = ⟨3, 2, some CaseStatusEnum.WORKER_ERROR⟩ := by
          rw [caseRetryLoop_unfold, h0, if_pos (show 0 < workerMaxRetries by decide),
            caseRetryLoop_unfold, h1, if_pos (show 1 < workerMaxRetries by decide),
            caseRetryLoop_unfold, h2, if_neg (show ¬ 2 < workerMaxRetries by decide)]
        rw [hr]
        refine ⟨by decide, by decide, ?_, ?_⟩
        · constructor
          · intro hcon
            simp at hcon
          · rintro ⟨j, hj, hx, hprev⟩
            interval_cases j
            · rw [h0] at hx
              cases hx
            · rw [h1] at hx
              cases hx
            · rw [h2] at hx
              cases hx
        · constructor
          · intro _
            refine Or.inr (fun i hi => ?_)
            interval_cases i
            · exact h0
            · exact h1
            · exact h2
          · intro _
            rfl

/-- A run whose first two attempts hit session errors and whose third
succeeds. -/
def c7Attempts : Nat → AttemptResult :=
  fun i => if i < 2 then AttemptResult.sessionErr else AttemptResult.success

/-- Witness for C7 at a concrete attempt sequence: two session errors then
a success make three attempts, two rebuilds, and no worker-error write. -/
theorem c7_session_retry_witness :
    (caseRetryLoop c7Attempts 0 0).recorded = none :=
  (c7_session_retry c7Attempts).2.2.1.mpr
    ⟨2, by omega, by decide, fun i hi => by
      have : i = 0 ∨ i = 1 := by omega
      rcases this with rfl | rfl
      · decide
      · decide⟩

/-- The dispatcher-visible shared state of the worker pool: the processing
queue of (case id, case number) entries, the actively-processing case
numbers (`app.state.actively_processing_cases`), and the entries a worker
has popped from the queue (`app/workers/case_worker.py` line 71) but not
yet taken through the locked check of lines 88-95 — between those two
points the entry is in neither structure. -/
structure PoolState where
  queue : List (Nat × String)
  active : List String
  holding : List (Nat × String)
deriving DecidableEq, Repr

/-- One case of the submission path at its check instant
(`app/api/routers/cases.py` line 103 and 134): the key is enqueued only if
it is in neither the queue snapshot nor the active set at that moment. -/
def submitStep (s : PoolState) (i : Nat) (k : String) : PoolState :=
  if s.queue.any (fun e => e.2 == k) || s.active.contains k then s
  else { s with queue := s.queue ++ [(i, k)] }

/-- A worker popping the head queue entry
(`app/workers/case_worker.py` line 71): the entry leaves the queue and sits
in the worker's local variables. -/
def popStep (s : PoolState) : PoolState :=
  match s.queue with
  | [] => s
  | e :: rest => { s with queue := rest, holding := s.holding ++ [e] }

/-- The locked check of `app/workers/case_worker.py` lines 88-95 for an
entry the worker holds: if the key is already active the entry is
re-enqueued (lines 90-94), otherwise the key is added to the active set
(line 95). -/
def dispatchStep (s : PoolState) (e : Nat × String) : PoolState :=
  if e ∈ s.holding then
    if s.active.contains e.2 then
      { s with queue := s.queue ++ [e], holding := s.holding.erase e }
    else
      { s with active := s.active ++ [e.2], holding := s.holding.erase e }
  else s

/-- Completion of a case (`app/workers/case_worker.py` lines 135-137): the
key leaves the active set. -/
def finishStep (s : PoolState) (k : String) : PoolState :=
  { s with active := s.active.erase k }

/-- The states the pool can reach from an idle start by interleaving
submissions, pops, dispatches and completions. -/
inductive PoolReach : PoolState → Prop
  | init : PoolReach ⟨[], [], []⟩
  | submit (s : PoolState) (i : Nat) (k : String) :
      PoolReach s → PoolReach (submitStep s i k)
  | pop (s : PoolState) : PoolReach s → PoolReach (popStep s)
  | dispatch (s : PoolState) (e : Nat × String) :
      PoolReach s → PoolReach (dispatchStep s e)
  | finish (s : PoolState) (k : String) :
      PoolReach s → PoolReach (finishStep s k)

/-- A reachable state in which the key K sits in the queue and in the
active set at the same time. -/
def badPoolState : PoolState := ⟨[(2, ("K"))], [("K")], []⟩

/-- C1 counterexample: the mutual-exclusion claim fails on the code.  Run:
submit K (id 1); worker A pops it; a second submission of K passes the
line-103 check because at that instant K is in neither the queue nor the
active set (worker A holds it popped but unchecked), so entry (2, K) is
enqueued; worker A's locked check then finds K inactive and activates it.
The resulting state — reachable by the dispatcher's own steps — has K
simultaneously in the queue and in the active set, and worker B popping
entry (2, K) afterwards takes the re-enqueue branch, which again leaves K
in both structures. -/
theorem c1_counterexample :
    PoolReach badPoolState ∧
    badPoolState.queue.any (fun e => e.2 == ("K")) = true ∧
    badPoolState.active.contains ("K") = true := by
  refine ⟨?_, rfl, rfl⟩
  have h0 : PoolReach ⟨[], [], []⟩ := PoolReach.init
  have h1 : PoolReach ⟨[(1, ("K"))], [], []⟩ := by
    have := PoolReach.submit ⟨[], [], []⟩ 1 ("K") h0
    rw [show submitStep ⟨[], [], []⟩ 1 ("K") = ⟨[(1, ("K"))], [], []⟩ from rfl] at this
    exact this
  have h2 : PoolReach ⟨[], [], [(1, ("K"))]⟩ := by
    have := PoolReach.pop ⟨[(1, ("K"))], [], []⟩ h1
    rw [show popStep ⟨[(1, ("K"))], [], []⟩ = ⟨[], [], [(1, ("K"))]⟩ from rfl] at this
    exact this
  have h3 : PoolReach ⟨[(2, ("K"))], [], [(1, ("K"))]⟩ := by
    have := PoolReach.submit ⟨[], [], [(1, ("K"))]⟩ 2 ("K") h2
    rw [show submitStep ⟨[], [], [(1, ("K"))]⟩ 2 ("K") =
      ⟨[(2, ("K"))], [], [(1, ("K"))]⟩ from rfl] at this
    exact this
  have h4 := PoolReach.dispatch ⟨[(2, ("K"))], [], [(1, ("K"))]⟩ (1, ("K")) h3
  rw [show dispatchStep ⟨[(2, ("K"))], [], [(1, ("K"))]⟩ (1, ("K")) = badPoolState
    from by decide] at h4
  exact h4

/-- C1 (amended): the submission path itself keeps the invariant — a key
that is queued or active at the check instant is never enqueued (the state
is unchanged) — but the worker dispatch path does not: dispatching an entry
the worker holds while its key is already active re-enqueues the entry,
yielding a state whose queue and active set both contain the key; mutual
exclusion therefore fails in the pop-to-activate window, though a key never
enters the active set twice. -/
theorem c1_mutual_exclusion_amended (s : PoolState) (i : Nat) (k : String)
    (e : Nat × String) :
    ((s.queue.any (fun x => x.2 == k) = true ∨ s.active.contains k = true) →
      submitStep s i k = s) ∧
    (e ∈ s.holding → s.active.contains e.2 = true →
      (dispatchStep s e).queue.any (fun x => x.2 == e.2) = true ∧
      (dispatchStep s e).active.contains e.2 = true) := by
  constructor
  · intro h
    unfold submitStep
    rcases h with h | h
    · rw [h]
      rfl
    · rw [h]
      simp
  · intro hh ha
    unfold dispatchStep
    rw [if_pos hh, if_pos ha]
    constructor
    · simp
    · exact ha

/-- Witness for C1's amended theorem at the concrete race state: worker B
holds entry (2, K) while K is active, and the re-enqueue branch leaves K in
the queue and in the active set simultaneously. -/
theorem c1_mutual_exclusion_witness :
    (dispatchStep ⟨[], [("K")], [(2, ("K"))]⟩ (2, ("K"))).queue.any
      (fun x => x.2 == ("K")) = true ∧
    (dispatchStep ⟨[], [("K")], [(2, ("K"))]⟩ (2, ("K"))).active.contains ("K") =
      true :=
  (c1_mutual_exclusion_amended ⟨[], [("K")], [(2, ("K"))]⟩ 0 ("K") (2, ("K"))).2
    (by decide) (by decide)

end UniCourt
